import Mathlib

/-!
BubbleScopeUnwrapper.

A model of `BubbleScopeUnwrapper.cpp`: the geometry setters, the generator of the
pixel transformation table and the per-frame gather, followed by the properties
proved about them.

Conventions of the model.

* A `float`/`double` quantity is carried as an exact rational: every value is finite
  and no operation rounds. Division by zero, which IEEE arithmetic answers with an
  infinity or a NaN, is `0` in `ℚ`; the statements that depend on a quotient assume a
  positive divisor.
* The 32-bit unsigned fields are naturals reduced modulo `2^32` where they are stored.
* `sin` and `cos` of the C library are a parameter of the generator (`MathLib`).
* `new unsigned long[n]` yields `n` cells whose contents are not initialised: the
  contents found there are a parameter `junk` of the generator (cell `k` holds `junk k`).
* An access outside a buffer has no defined result: the operation returns `none`.
-/

/-- Modelled from the spec: the macro D_PI is declared in the header
`BubbleScopeUnwrapper.h`, which is not among the sources; the spec reads it as π.
The value is the IEEE double nearest to π, `7074237752028440 / 2^51`. -/
def D_PI : ℚ := 884279719003555 / 281474976710656

/-- Modelled from the spec: the macro DEG_2_RAD is declared in the same absent header;
the spec says the stored angle is the radian conversion of the degrees, π / 180. -/
def DEG_2_RAD : ℚ := D_PI / 180

/-- The functions `sin` and `cos` of the C math library, which the generator calls.
The library is not part of the repository, so it is a parameter; the laws are the ones
every implementation satisfies on floats: exact values at `0` and results in `[-1, 1]`. -/
structure MathLib where
  sin : ℚ → ℚ
  cos : ℚ → ℚ
  sin_zero : sin 0 = 0
  cos_zero : cos 0 = 1
  sin_le : ∀ x, sin x ≤ 1
  sin_ge : ∀ x, -1 ≤ sin x
  cos_le : ∀ x, cos x ≤ 1
  cos_ge : ∀ x, -1 ≤ cos x

/-- The C conversion of a floating value to a signed integer: truncation toward zero. -/
def truncToInt (x : ℚ) : Int := if 0 ≤ x then ⌊x⌋ else ⌈x⌉

/-- The value of a signed integer stored in an `unsigned int`. -/
def toUInt32 (z : Int) : Nat := (z % 4294967296).toNat

/-- The state of a `BubbleScopeUnwrapper` object: the data members the constructor
initialises. The class declaration is in the header `BubbleScopeUnwrapper.h`, which is not
among the sources: the integer members are taken as `unsigned int`, the type
`getUnwrapHeight` returns, and the others as `float`. A null `m_transformation` is
`none`; otherwise it is the array the pointer refers to. -/
structure BubbleScopeUnwrapper where
  m_transformation : Option (List Nat)
  m_originalWidth : Nat
  m_originalHeight : Nat
  m_unwrapWidth : Nat
  m_uCentre : ℚ
  m_vCentre : ℚ
  m_radiusMin : ℚ
  m_radiusMax : ℚ
  m_offsetAngle : ℚ
  m_unwrapHeight : Nat
  m_outMatSize : Nat
deriving DecidableEq

/-- The constructor `BubbleScopeUnwrapper::BubbleScopeUnwrapper()`. -/
def BubbleScopeUnwrapper.ctor : BubbleScopeUnwrapper where
  m_transformation := none
  m_originalWidth := 0
  m_originalHeight := 0
  m_unwrapWidth := 0
  m_uCentre := 0
  m_vCentre := 0
  m_radiusMin := 0
  m_radiusMax := 0
  m_offsetAngle := 0
  m_unwrapHeight := 0
  m_outMatSize := 0

/-- The assignment `a[k] = v` to an array: defined only inside the array. -/
def store (a : List Nat) (k v : Nat) : Option (List Nat) :=
  if k < a.length then some (a.set k v) else none

/-- The value `oldPixelIndex` computed by the body of the inner loop of
`generateTransformation` for row counter `i` and column counter `j`. -/
def oldPixelIndex (m : MathLib) (s : BubbleScopeUnwrapper) (i j : Nat) : Nat :=
  let radius_delta : ℚ := s.m_radiusMax - s.m_radiusMin
  let aspect : ℚ := (s.m_originalWidth : ℚ) / (s.m_originalHeight : ℚ)
  let amplitutde : ℚ := (radius_delta * ((i : ℚ) / (s.m_unwrapHeight : ℚ))) + s.m_radiusMin
  let longitudeAngle : ℚ := (D_PI * ((j : ℚ) / (s.m_unwrapWidth : ℚ))) + s.m_offsetAngle
  let sinLongAngle : ℚ := m.sin longitudeAngle
  let cosLongAngle : ℚ := m.cos longitudeAngle
  let u0 : ℚ := aspect * sinLongAngle * amplitutde + s.m_uCentre
  let v0 : ℚ := cosLongAngle * amplitutde + (1 - s.m_vCentre)
  let u : ℚ := if u0 > 1 then 1 else u0
  let v : ℚ := if v0 > 1 then 1 else v0
  let xPixel : Int := truncToInt ((1 - v) * (s.m_originalWidth : ℚ))
  let yPixel : Int := truncToInt ((1 - u) * (s.m_originalHeight : ℚ))
  toUInt32 (((yPixel * (s.m_originalWidth : Int)) + xPixel) * 3)

/-- The three stores of one pass of the inner loop, at `index`, `index + 1`, `index + 2`. -/
def writePixel (t : List Nat) (index p : Nat) : Option (List Nat) :=
  (store t index p).bind fun t1 =>
  (store t1 (index + 1) (p + 1)).bind fun t2 =>
  store t2 (index + 2) (p + 2)

/-- The inner loop `for (j = 0; j < m_unwrapWidth; ++j)` of one row `i`, run over the
column counters `js`; the loop state is `index` and the table. -/
def columnLoop (m : MathLib) (s : BubbleScopeUnwrapper) (i : Nat) :
    List Nat → Nat → List Nat → Option (Nat × List Nat)
  | [], index, t => some (index, t)
  | j :: js, index, t =>
    (writePixel t index (oldPixelIndex m s i j)).bind fun t1 =>
    columnLoop m s i js (index + 3) t1

/-- The outer loop `for (i = m_unwrapHeight - 1; i > 0; i--)`, run over the row
counters `is`. -/
def rowLoop (m : MathLib) (s : BubbleScopeUnwrapper) :
    List Nat → Nat → List Nat → Option (Nat × List Nat)
  | [], index, t => some (index, t)
  | i :: is, index, t =>
    (columnLoop m s i (List.range s.m_unwrapWidth) index t).bind fun r =>
    rowLoop m s is r.1 r.2

/-- The values the unsigned row counter `i` takes: it starts at `m_unwrapHeight - 1`
computed in `unsigned int` and counts down while `i > 0`. -/
def rowCounters (s : BubbleScopeUnwrapper) : List Nat :=
  (List.range' 1 (toUInt32 ((s.m_unwrapHeight : Int) - 1))).reverse

/-- The local `pixelSpan` of `generateTransformation`: the float product stored in an
`unsigned int`. -/
def pixelSpan (s : BubbleScopeUnwrapper) : Nat :=
  toUInt32 (truncToInt ((s.m_originalWidth : ℚ) * s.m_radiusMax * 2))

/-- The method `generateTransformation`: the returned flag and the state left behind. -/
def BubbleScopeUnwrapper.generateTransformation (m : MathLib) (junk : Nat → Nat)
    (s : BubbleScopeUnwrapper) : Option (Bool × BubbleScopeUnwrapper) :=
  let t0 : List Nat := (List.range s.m_outMatSize).map junk
  if pixelSpan s > s.m_originalHeight then
    some (false, { s with m_transformation := some t0 })
  else
    (rowLoop m s (rowCounters s) 0 t0).bind fun r =>
    some (true, { s with m_transformation := some r.2 })

/-- One pass of the loop of `unwrap`: `unwrapPixels[i] = originalPixels[m_transformation[i]]`.
The pair is the memory the loop touches: `originalPixels` and `unwrapPixels`. -/
def gatherStep (t : List Nat) (mem : List Nat × List Nat) (i : Nat) :
    Option (List Nat × List Nat) :=
  (t.get? i).bind fun k =>
  (mem.1.get? k).bind fun b =>
  (store mem.2 i b).bind fun o =>
  some (mem.1, o)

/-- The loop `for (i = 0; i < m_outMatSize; i++)` of `unwrap`, run over the counters `is`. -/
def gatherLoop (t : List Nat) : List Nat → List Nat × List Nat → Option (List Nat × List Nat)
  | [], mem => some mem
  | i :: is, mem => (gatherStep t mem i).bind fun mem1 => gatherLoop t is mem1

/-- The method `unwrap`: the returned flag, the bytes of `imageIn` after the call and
the image assigned to `*imageOut`, if any. -/
def BubbleScopeUnwrapper.unwrap (s : BubbleScopeUnwrapper) (imageIn : List Nat) :
    Option (Bool × List Nat × Option (List Nat)) :=
  match s.m_transformation with
  | none => some (false, imageIn, none)
  | some t =>
    let imageOut : List Nat := List.replicate (s.m_unwrapHeight * s.m_unwrapWidth * 3) 0
    (gatherLoop t (List.range s.m_outMatSize) (imageIn, imageOut)).bind fun mem =>
    some (true, mem.1, some mem.2)

/-- The method `unwrapWidth`. -/
def BubbleScopeUnwrapper.unwrapWidth (s : BubbleScopeUnwrapper) (width : Int) :
    Bool × BubbleScopeUnwrapper :=
  if width ≤ 0 then (false, s)
  else
    let w : Nat := toUInt32 width
    let h : Nat := toUInt32 (truncToInt ((w : ℚ) / D_PI))
    (true, { s with m_unwrapWidth := w, m_unwrapHeight := h,
                    m_outMatSize := toUInt32 ((w : Int) * (h : Int) * 3) })

/-- The method `originalSize`. -/
def BubbleScopeUnwrapper.originalSize (s : BubbleScopeUnwrapper) (width height : Int) :
    Bool × BubbleScopeUnwrapper :=
  if width < 0 ∨ height < 0 then (false, s)
  else (true, { s with m_originalWidth := toUInt32 width, m_originalHeight := toUInt32 height })

/-- The method `originalCentre`. -/
def BubbleScopeUnwrapper.originalCentre (s : BubbleScopeUnwrapper) (u v : ℚ) :
    Bool × BubbleScopeUnwrapper :=
  if u < 0 ∨ u > 1 then (false, s)
  else if v < 0 ∨ v > 1 then (false, s)
  else (true, { s with m_uCentre := u, m_vCentre := v })

/-- The method `imageRadius`. -/
def BubbleScopeUnwrapper.imageRadius (s : BubbleScopeUnwrapper) (min max : ℚ) :
    Bool × BubbleScopeUnwrapper :=
  if min < 0 ∨ min > 1 / 2 then (false, s)
  else if max < 0 ∨ max > 1 / 2 then (false, s)
  else if min ≥ max then (false, s)
  else (true, { s with m_radiusMin := min, m_radiusMax := max })

/-- The method `offsetAngle`. -/
def BubbleScopeUnwrapper.offsetAngle (s : BubbleScopeUnwrapper) (angle : ℚ) :
    Bool × BubbleScopeUnwrapper :=
  if angle < 0 ∨ angle > 360 then (false, s)
  else (true, { s with m_offsetAngle := angle * DEG_2_RAD })

/-- A call of one of the five setters, with its arguments. -/
inductive SetterCall where
  | unwrapWidth (width : Int)
  | originalSize (width height : Int)
  | originalCentre (u v : ℚ)
  | imageRadius (min max : ℚ)
  | offsetAngle (angle : ℚ)

/-- The effect of a setter call: the flag it returns and the state it leaves. -/
def SetterCall.run (s : BubbleScopeUnwrapper) : SetterCall → Bool × BubbleScopeUnwrapper
  | .unwrapWidth width => s.unwrapWidth width
  | .originalSize width height => s.originalSize width height
  | .originalCentre u v => s.originalCentre u v
  | .imageRadius min max => s.imageRadius min max
  | .offsetAngle angle => s.offsetAngle angle

/-- The state after a sequence of setter calls, whatever each of them returned. -/
def runSetters (s : BubbleScopeUnwrapper) (calls : List SetterCall) : BubbleScopeUnwrapper :=
  calls.foldl (fun st c => (c.run st).2) s

/-- A math library for running the model: the rational point of the unit circle with
parameter `x / 2`, which agrees with the circular functions to second order at `0`. -/
def circleLib : MathLib where
  sin := fun x => x / (1 + (x / 2) ^ 2)
  cos := fun x => (1 - (x / 2) ^ 2) / (1 + (x / 2) ^ 2)
  sin_zero := by norm_num
  cos_zero := by norm_num
  sin_le := fun x => by
    have h : (0 : ℚ) < 1 + (x / 2) ^ 2 := by positivity
    rw [div_le_one h]
    nlinarith [sq_nonneg (x / 2 - 1)]
  sin_ge := fun x => by
    have h : (0 : ℚ) < 1 + (x / 2) ^ 2 := by positivity
    rw [le_div_iff₀ h]
    nlinarith [sq_nonneg (x / 2 + 1)]
  cos_le := fun x => by
    have h : (0 : ℚ) < 1 + (x / 2) ^ 2 := by positivity
    rw [div_le_one h]
    nlinarith [sq_nonneg (x / 2)]
  cos_ge := fun x => by
    have h : (0 : ℚ) < 1 + (x / 2) ^ 2 := by positivity
    rw [le_div_iff₀ h]
    nlinarith [sq_nonneg (x / 2)]

/-- The three table entries written for one destination pixel whose source offset is `p`. -/
def pixelEntries (p : Nat) : List Nat := [p, p + 1, p + 2]

/-- The entries the inner loop writes, in order, for row counter `i` and column counters `js`. -/
def columnEntries (m : MathLib) (s : BubbleScopeUnwrapper) (i : Nat) : List Nat → List Nat
  | [] => []
  | j :: js => pixelEntries (oldPixelIndex m s i j) ++ columnEntries m s i js

/-- The entries the outer loop writes, in order, for the row counters `is`. -/
def rowEntries (m : MathLib) (s : BubbleScopeUnwrapper) : List Nat → List Nat
  | [] => []
  | i :: is => columnEntries m s i (List.range s.m_unwrapWidth) ++ rowEntries m s is

/-- The state reached from a fresh object by calling the five setters once each, in the
order `unwrapWidth`, `originalSize`, `originalCentre`, `imageRadius`, `offsetAngle`. -/
def configure (unwrapWidth originalWidth originalHeight : Int)
    (u v min max angle : ℚ) : BubbleScopeUnwrapper :=
  runSetters BubbleScopeUnwrapper.ctor
    [.unwrapWidth unwrapWidth, .originalSize originalWidth originalHeight,
     .originalCentre u v, .imageRadius min max, .offsetAngle angle]

/-- The radius band a successful `imageRadius` call leaves in the state. -/
def RadiusBand (s : BubbleScopeUnwrapper) : Prop :=
  0 ≤ s.m_radiusMin ∧ s.m_radiusMin < s.m_radiusMax ∧ s.m_radiusMax ≤ 1 / 2

instance (s : BubbleScopeUnwrapper) : Decidable (RadiusBand s) := by
  unfold RadiusBand
  infer_instance

/-- What `unwrapWidth` leaves in the three fields it owns: nothing before its first
success, afterwards the width, the integer part of `width / D_PI` and their 32-bit
product with 3. -/
def WidthDerived (s : BubbleScopeUnwrapper) : Prop :=
  (s.m_unwrapWidth = 0 ∧ s.m_unwrapHeight = 0 ∧ s.m_outMatSize = 0) ∨
  (0 < s.m_unwrapWidth ∧ s.m_unwrapWidth < 2147483648 ∧
    s.m_unwrapHeight = ⌊(s.m_unwrapWidth : ℚ) / D_PI⌋.toNat ∧
    s.m_outMatSize = (s.m_unwrapWidth * s.m_unwrapHeight * 3) % 4294967296)

instance (s : BubbleScopeUnwrapper) : Decidable (WidthDerived s) := by
  unfold WidthDerived
  infer_instance

/-- The value of `u` after the clamp `if(u > 1.0f) u = 1.0f` in the body of the inner loop
of `generateTransformation`, for row counter `i` and column counter `j`. -/
def clampedU (m : MathLib) (s : BubbleScopeUnwrapper) (i j : Nat) : ℚ :=
  let radius_delta : ℚ := s.m_radiusMax - s.m_radiusMin
  let aspect : ℚ := (s.m_originalWidth : ℚ) / (s.m_originalHeight : ℚ)
  let amplitutde : ℚ := (radius_delta * ((i : ℚ) / (s.m_unwrapHeight : ℚ))) + s.m_radiusMin
  let longitudeAngle : ℚ := (D_PI * ((j : ℚ) / (s.m_unwrapWidth : ℚ))) + s.m_offsetAngle
  let u0 : ℚ := aspect * m.sin longitudeAngle * amplitutde + s.m_uCentre
  if u0 > 1 then 1 else u0

/-- The value of `v` after the clamp `if(v > 1.0f) v = 1.0f`, for row counter `i` and
column counter `j`. -/
def clampedV (m : MathLib) (s : BubbleScopeUnwrapper) (i j : Nat) : ℚ :=
  let radius_delta : ℚ := s.m_radiusMax - s.m_radiusMin
  let amplitutde : ℚ := (radius_delta * ((i : ℚ) / (s.m_unwrapHeight : ℚ))) + s.m_radiusMin
  let longitudeAngle : ℚ := (D_PI * ((j : ℚ) / (s.m_unwrapWidth : ℚ))) + s.m_offsetAngle
  let v0 : ℚ := m.cos longitudeAngle * amplitutde + (1 - s.m_vCentre)
  if v0 > 1 then 1 else v0

/-- The local `xPixel` of the inner loop: `(int) ((1.0f - v) * m_originalWidth)`. -/
def xPixel (m : MathLib) (s : BubbleScopeUnwrapper) (i j : Nat) : Int :=
  truncToInt ((1 - clampedV m s i j) * (s.m_originalWidth : ℚ))

/-- The local `yPixel` of the inner loop: `(int) ((1.0f - u) * m_originalHeight)`. -/
def yPixel (m : MathLib) (s : BubbleScopeUnwrapper) (i j : Nat) : Int :=
  truncToInt ((1 - clampedU m s i j) * (s.m_originalHeight : ℚ))

/-- A captured frame of 640 by 480 pixels, three bytes each, every byte `b`. -/
def frame640x480 (b : Nat) : List Nat := List.replicate (640 * 480 * 3) b

theorem store_of_lt {a : List Nat} {k : Nat} (v : Nat) (h : k < a.length) :
    store a k v = some (a.set k v) := by
  simp [store, h]

theorem set_three (p : Nat) : ∀ (index : Nat) (t : List Nat), index + 3 ≤ t.length →
    ((t.set index p).set (index + 1) (p + 1)).set (index + 2) (p + 2)
      = t.take index ++ pixelEntries p ++ t.drop (index + 3)
  | 0, t, h => by
    match t, h with
    | a :: b :: c :: rest, _ => simp [pixelEntries]
  | index + 1, t, h => by
    match t, h with
    | a :: rest, h =>
      have h1 : index + 3 ≤ rest.length := by simpa using h
      have ih := set_three p index rest h1
      simp only [List.set_cons_succ, List.take_succ_cons, List.drop_succ_cons, List.cons_append]
      rw [ih]

theorem writePixel_eq (p : Nat) (index : Nat) (t : List Nat) (h : index + 3 ≤ t.length) :
    writePixel t index p = some (t.take index ++ pixelEntries p ++ t.drop (index + 3)) := by
  unfold writePixel
  rw [store_of_lt p (by omega : index < t.length)]
  simp only [Option.some_bind]
  rw [store_of_lt (p + 1) (by simp; omega)]
  simp only [Option.some_bind]
  rw [store_of_lt (p + 2) (by simp; omega)]
  rw [set_three p index t h]

theorem length_pixelEntries (p : Nat) : (pixelEntries p).length = 3 := rfl

theorem length_columnEntries (m : MathLib) (s : BubbleScopeUnwrapper) (i : Nat) :
    ∀ js : List Nat, (columnEntries m s i js).length = 3 * js.length
  | [] => rfl
  | j :: js => by
    simp only [columnEntries, List.length_append, length_pixelEntries,
      length_columnEntries m s i js, List.length_cons]
    omega

theorem length_rowEntries (m : MathLib) (s : BubbleScopeUnwrapper) :
    ∀ is : List Nat, (rowEntries m s is).length = 3 * s.m_unwrapWidth * is.length
  | [] => rfl
  | i :: is => by
    simp only [rowEntries, List.length_append, length_columnEntries, List.length_range,
      length_rowEntries m s is, List.length_cons]
    rw [Nat.mul_succ]
    omega

/-- Overwriting a block of a list that lies inside it: what the list looks like around
the block afterwards. -/
theorem splice_take_drop (t blk : List Nat) (index n : Nat) (h : index + blk.length ≤ t.length) :
    (t.take index ++ blk ++ t.drop (index + blk.length)).take (index + blk.length)
        = t.take index ++ blk
    ∧ (t.take index ++ blk ++ t.drop (index + blk.length)).drop (index + blk.length + n)
        = t.drop (index + blk.length + n)
    ∧ (t.take index ++ blk ++ t.drop (index + blk.length)).length = t.length := by
  have hl : (t.take index ++ blk).length = index + blk.length := by
    simp only [List.length_append, List.length_take]
    omega
  refine ⟨List.take_left' hl, ?_, ?_⟩
  · rw [← hl, List.drop_append, List.drop_drop, hl]
  · rw [List.length_append, hl, List.length_drop]
    omega

theorem columnLoop_eq (m : MathLib) (s : BubbleScopeUnwrapper) (i : Nat) :
    ∀ (js : List Nat) (index : Nat) (t : List Nat), index + 3 * js.length ≤ t.length →
      columnLoop m s i js index t
        = some (index + 3 * js.length,
            t.take index ++ columnEntries m s i js ++ t.drop (index + 3 * js.length))
  | [], index, t, _ => by
    simp [columnLoop, columnEntries]
  | j :: js, index, t, h => by
    have hlen : index + 3 + 3 * js.length ≤ t.length := by
      simp only [List.length_cons] at h
      omega
    have hsp := splice_take_drop t (pixelEntries (oldPixelIndex m s i j)) index (3 * js.length)
      (by rw [length_pixelEntries]; omega)
    rw [length_pixelEntries] at hsp
    obtain ⟨h1, h2, h3⟩ := hsp
    unfold columnLoop
    rw [writePixel_eq _ _ _ (by omega), Option.some_bind,
      columnLoop_eq m s i js (index + 3) _ (by rw [h3]; exact hlen), h1, h2]
    simp only [columnEntries, List.length_cons, List.append_assoc]
    have e : index + 3 * (js.length + 1) = index + 3 + 3 * js.length := by omega
    rw [e]

theorem rowLoop_eq (m : MathLib) (s : BubbleScopeUnwrapper) :
    ∀ (is : List Nat) (index : Nat) (t : List Nat),
      index + 3 * s.m_unwrapWidth * is.length ≤ t.length →
      rowLoop m s is index t
        = some (index + 3 * s.m_unwrapWidth * is.length,
            t.take index ++ rowEntries m s is ++ t.drop (index + 3 * s.m_unwrapWidth * is.length))
  | [], index, t, _ => by
    simp [rowLoop, rowEntries]
  | i :: is, index, t, h => by
    have hmul : 3 * s.m_unwrapWidth * (is.length + 1)
        = 3 * s.m_unwrapWidth + 3 * s.m_unwrapWidth * is.length := by
      rw [Nat.mul_succ]; omega
    simp only [List.length_cons] at h
    rw [hmul] at h
    have hsp := splice_take_drop t (columnEntries m s i (List.range s.m_unwrapWidth)) index
      (3 * s.m_unwrapWidth * is.length)
      (by rw [length_columnEntries, List.length_range]; omega)
    rw [length_columnEntries, List.length_range] at hsp
    obtain ⟨h1, h2, h3⟩ := hsp
    unfold rowLoop
    rw [columnLoop_eq m s i _ index t (by rw [List.length_range]; omega), Option.some_bind]
    simp only [List.length_range]
    rw [rowLoop_eq m s is _ _ (by rw [h3]; omega), h1, h2]
    simp only [rowEntries, List.length_cons, List.append_assoc]
    rw [hmul, Nat.add_assoc]

theorem toUInt32_ofNat (n : Nat) (h : n < 4294967296) : toUInt32 (n : Int) = n := by
  unfold toUInt32
  rw [Int.emod_eq_of_lt (by omega) (by omega)]
  simp

theorem truncToInt_900 : truncToInt ((900 : ℚ) / D_PI) = 286 := by
  unfold truncToInt D_PI
  norm_num

theorem configure_900 (u v max : ℚ) (hu : 0 ≤ u ∧ u ≤ 1) (hv : 0 ≤ v ∧ v ≤ 1)
    (hmax : 1 / 10 < max ∧ max ≤ 1 / 2) (ow oh : Nat) (how : ow < 4294967296)
    (hoh : oh < 4294967296) :
    configure 900 ow oh u v (1 / 10) max 0 =
      { m_transformation := none, m_originalWidth := ow, m_originalHeight := oh,
        m_unwrapWidth := 900, m_uCentre := u, m_vCentre := v, m_radiusMin := 1 / 10,
        m_radiusMax := max, m_offsetAngle := 0, m_unwrapHeight := 286,
        m_outMatSize := 772200 } := by
  have h1 : ¬ (u < 0 ∨ u > 1) := by rintro (h | h) <;> linarith [hu.1, hu.2]
  have h2 : ¬ (v < 0 ∨ v > 1) := by rintro (h | h) <;> linarith [hv.1, hv.2]
  have h3 : ¬ (max < 0 ∨ max > 1 / 2) := by rintro (h | h) <;> linarith [hmax.1, hmax.2]
  have h4 : ¬ ((1 : ℚ) / 10 ≥ max) := by linarith [hmax.1]
  have h5 : ¬ ((ow : Int) < 0 ∨ (oh : Int) < 0) := by omega
  simp only [configure, runSetters, List.foldl, SetterCall.run,
    BubbleScopeUnwrapper.unwrapWidth, BubbleScopeUnwrapper.originalSize,
    BubbleScopeUnwrapper.originalCentre, BubbleScopeUnwrapper.imageRadius,
    BubbleScopeUnwrapper.offsetAngle, BubbleScopeUnwrapper.ctor, h1, h2, h3, h4, h5, if_false]
  have e1 : toUInt32 900 = 900 := by decide
  have e2 : toUInt32 286 = 286 := by decide
  have e3 : toUInt32 (((900 : Nat) : Int) * ((286 : Nat) : Int) * 3) = 772200 := by decide
  have e4 : truncToInt (((900 : Nat) : ℚ) / D_PI) = 286 := by
    rw [← truncToInt_900]; norm_num
  rw [e1, e4, e2, e3, toUInt32_ofNat _ how, toUInt32_ofNat _ hoh]
  norm_num

/-! The setters -/

theorem run_table (c : SetterCall) (s : BubbleScopeUnwrapper) :
    (c.run s).2.m_transformation = s.m_transformation := by
  cases c <;>
    simp only [SetterCall.run, BubbleScopeUnwrapper.unwrapWidth,
      BubbleScopeUnwrapper.originalSize, BubbleScopeUnwrapper.originalCentre,
      BubbleScopeUnwrapper.imageRadius, BubbleScopeUnwrapper.offsetAngle] <;>
    split_ifs <;> rfl

theorem runSetters_table (calls : List SetterCall) :
    ∀ s : BubbleScopeUnwrapper, (runSetters s calls).m_transformation = s.m_transformation := by
  induction calls with
  | nil => intro s; rfl
  | cons c cs ih =>
    intro s
    show (runSetters (c.run s).2 cs).m_transformation = _
    rw [ih, run_table]

/-- C5: on a freshly constructed unwrapper, and after any sequence of setter calls with no
call of `generateTransformation`, `unwrap` returns false for every source image, assigns
no output image and leaves the source bytes as they were. -/
theorem unwrap_before_generation (calls : List SetterCall) (imageIn : List Nat) :
    (runSetters BubbleScopeUnwrapper.ctor calls).unwrap imageIn = some (false, imageIn, none) := by
  have h := runSetters_table calls BubbleScopeUnwrapper.ctor
  unfold BubbleScopeUnwrapper.unwrap
  rw [h]
  rfl

theorem toUInt32_of_nonneg (z : Int) (h0 : 0 ≤ z) (h : z < 4294967296) :
    toUInt32 z = z.toNat := by
  unfold toUInt32
  rw [Int.emod_eq_of_lt h0 h]

theorem D_PI_gt_one : (1 : ℚ) < D_PI := by
  unfold D_PI
  norm_num

theorem unwrapWidth_of_pos (s : BubbleScopeUnwrapper) (width : Int) (hpos : 0 < width)
    (hlt : width < 2147483648) :
    (s.unwrapWidth width).1 = true ∧
    (s.unwrapWidth width).2.m_unwrapWidth = width.toNat ∧
    (s.unwrapWidth width).2.m_unwrapHeight = ⌊(width : ℚ) / D_PI⌋.toNat ∧
    (s.unwrapWidth width).2.m_outMatSize
      = (width.toNat * ⌊(width : ℚ) / D_PI⌋.toNat * 3) % 4294967296 := by
  have hw : toUInt32 width = width.toNat := toUInt32_of_nonneg width hpos.le (by omega)
  have hcast : ((width.toNat : Nat) : ℚ) = (width : ℚ) := by
    have : ((width.toNat : Nat) : Int) = width := Int.toNat_of_nonneg hpos.le
    exact_mod_cast this
  have hq0 : (0 : ℚ) ≤ (width : ℚ) / D_PI :=
    div_nonneg (by exact_mod_cast hpos.le) (by linarith [D_PI_gt_one])
  have hfl0 : 0 ≤ ⌊(width : ℚ) / D_PI⌋ := Int.floor_nonneg.mpr hq0
  have hqle : (width : ℚ) / D_PI ≤ (width : ℚ) :=
    div_le_self (by exact_mod_cast hpos.le) D_PI_gt_one.le
  have hfle : ⌊(width : ℚ) / D_PI⌋ ≤ width := by
    have : ((⌊(width : ℚ) / D_PI⌋ : Int) : ℚ) ≤ (width : ℚ) :=
      le_trans (Int.floor_le _) hqle
    exact_mod_cast this
  have htr : truncToInt ((width : ℚ) / D_PI) = ⌊(width : ℚ) / D_PI⌋ := by
    unfold truncToInt
    rw [if_pos hq0]
  have hh : toUInt32 ⌊(width : ℚ) / D_PI⌋ = ⌊(width : ℚ) / D_PI⌋.toNat :=
    toUInt32_of_nonneg _ hfl0 (by omega)
  have hnot : ¬ width ≤ 0 := by omega
  simp only [BubbleScopeUnwrapper.unwrapWidth, if_neg hnot, hw, hcast, htr, hh]
  refine ⟨trivial, trivial, trivial, ?_⟩
  unfold toUInt32
  have e : ((width.toNat : Nat) : Int) * ((⌊(width : ℚ) / D_PI⌋.toNat : Nat) : Int) * 3
      = ((width.toNat * ⌊(width : ℚ) / D_PI⌋.toNat * 3 : Nat) : Int) := by
    push_cast; ring
  rw [e]
  have e2 : (4294967296 : Int) = ((4294967296 : Nat) : Int) := rfl
  rw [e2, ← Int.natCast_mod, Int.toNat_natCast]

theorem run_false (c : SetterCall) (s : BubbleScopeUnwrapper) (h : (c.run s).1 = false) :
    (c.run s).2 = s := by
  cases c <;>
    simp only [SetterCall.run, BubbleScopeUnwrapper.unwrapWidth,
      BubbleScopeUnwrapper.originalSize, BubbleScopeUnwrapper.originalCentre,
      BubbleScopeUnwrapper.imageRadius, BubbleScopeUnwrapper.offsetAngle] at h ⊢ <;>
    split_ifs at h ⊢ <;> rfl

/-- C10: whichever of the five setters is called and whatever its arguments, a call that
returns false leaves the whole state (geometry, derived fields and table) as it was. -/
theorem setter_failure_keeps_state (c : SetterCall) (s : BubbleScopeUnwrapper)
    (h : (c.run s).1 = false) : (c.run s).2 = s :=
  run_false c s h

/-- C10 at a call whose first argument is in range and whose second is not. -/
theorem setter_failure_keeps_state_witness :
    ((SetterCall.originalSize 640 (-1)).run
        (configure 900 640 480 (1 / 2) (1 / 2) (1 / 10) (3 / 10) 0)).1 = false ∧
    ((SetterCall.originalSize 640 (-1)).run
        (configure 900 640 480 (1 / 2) (1 / 2) (1 / 10) (3 / 10) 0)).2
      = configure 900 640 480 (1 / 2) (1 / 2) (1 / 10) (3 / 10) 0 :=
  ⟨by simp [SetterCall.run, BubbleScopeUnwrapper.originalSize],
   setter_failure_keeps_state _ _ (by simp [SetterCall.run, BubbleScopeUnwrapper.originalSize])⟩

/-! The feasibility check and the generated table -/

theorem truncToInt_of_nonneg {x : ℚ} (h : 0 ≤ x) : truncToInt x = ⌊x⌋ := by
  unfold truncToInt
  rw [if_pos h]

theorem pixelSpan_eq_floor (s : BubbleScopeUnwrapper) (h0 : 0 ≤ s.m_radiusMax)
    (h1 : s.m_radiusMax ≤ 1 / 2) (hw : s.m_originalWidth < 4294967296) :
    ((pixelSpan s : Nat) : Int) = ⌊(s.m_originalWidth : ℚ) * s.m_radiusMax * 2⌋ := by
  have hW : (0 : ℚ) ≤ (s.m_originalWidth : ℚ) := Nat.cast_nonneg _
  have hx0 : (0 : ℚ) ≤ (s.m_originalWidth : ℚ) * s.m_radiusMax * 2 := by positivity
  have hxle : (s.m_originalWidth : ℚ) * s.m_radiusMax * 2 ≤ (s.m_originalWidth : ℚ) := by
    nlinarith
  have hf0 : 0 ≤ ⌊(s.m_originalWidth : ℚ) * s.m_radiusMax * 2⌋ := Int.floor_nonneg.mpr hx0
  have hfle : ⌊(s.m_originalWidth : ℚ) * s.m_radiusMax * 2⌋ ≤ (s.m_originalWidth : Int) := by
    have : ((⌊(s.m_originalWidth : ℚ) * s.m_radiusMax * 2⌋ : Int) : ℚ)
        ≤ ((s.m_originalWidth : Int) : ℚ) := by
      push_cast
      exact le_trans (Int.floor_le _) hxle
    exact_mod_cast this
  unfold pixelSpan
  rw [truncToInt_of_nonneg hx0, toUInt32_of_nonneg _ hf0 (by omega), Int.toNat_of_nonneg hf0]

theorem pixelSpan_gt_iff (s : BubbleScopeUnwrapper) (h0 : 0 ≤ s.m_radiusMax)
    (h1 : s.m_radiusMax ≤ 1 / 2) (hw : s.m_originalWidth < 4294967296) :
    pixelSpan s > s.m_originalHeight
      ↔ (s.m_originalHeight : ℚ) + 1 ≤ (s.m_originalWidth : ℚ) * s.m_radiusMax * 2 := by
  have hp := pixelSpan_eq_floor s h0 h1 hw
  constructor
  · intro h
    have h2 : ((s.m_originalHeight : Int) + 1) ≤ ⌊(s.m_originalWidth : ℚ) * s.m_radiusMax * 2⌋ := by
      rw [← hp]; omega
    have h3 := Int.le_floor.mp h2
    push_cast at h3
    exact h3
  · intro h
    have h2 : ((s.m_originalHeight : Int) + 1) ≤ ⌊(s.m_originalWidth : ℚ) * s.m_radiusMax * 2⌋ := by
      apply Int.le_floor.mpr
      push_cast
      exact h
    rw [← hp] at h2
    omega

theorem generateTransformation_of_gt (m : MathLib) (junk : Nat → Nat) (s : BubbleScopeUnwrapper)
    (h : pixelSpan s > s.m_originalHeight) :
    s.generateTransformation m junk
      = some (false, { s with m_transformation := some ((List.range s.m_outMatSize).map junk) }) := by
  unfold BubbleScopeUnwrapper.generateTransformation
  simp only [if_pos h]

theorem generateTransformation_of_le (m : MathLib) (junk : Nat → Nat) (s : BubbleScopeUnwrapper)
    (h : pixelSpan s ≤ s.m_originalHeight)
    (hfit : 3 * s.m_unwrapWidth * (rowCounters s).length ≤ s.m_outMatSize) :
    s.generateTransformation m junk
      = some (true, { s with m_transformation := some (rowEntries m s (rowCounters s)
          ++ ((List.range s.m_outMatSize).map junk).drop
              (3 * s.m_unwrapWidth * (rowCounters s).length)) }) := by
  unfold BubbleScopeUnwrapper.generateTransformation
  have hn : ¬ pixelSpan s > s.m_originalHeight := by omega
  simp only [if_neg hn]
  rw [rowLoop_eq m s (rowCounters s) 0 _ (by simp only [List.length_map, List.length_range]; omega)]
  simp

theorem generateTransformation_false_iff (m : MathLib) (junk : Nat → Nat)
    (s : BubbleScopeUnwrapper) :
    (s.generateTransformation m junk).map Prod.fst = some false
      ↔ pixelSpan s > s.m_originalHeight := by
  constructor
  · intro h
    by_contra hn
    unfold BubbleScopeUnwrapper.generateTransformation at h
    simp only [if_neg hn] at h
    cases hr : rowLoop m s (rowCounters s) 0 ((List.range s.m_outMatSize).map junk) with
    | none => rw [hr] at h; simp at h
    | some r => rw [hr] at h; simp at h
  · intro h
    rw [generateTransformation_of_gt m junk s h]
    rfl

theorem rowCounters_eq (s : BubbleScopeUnwrapper) (h1 : 1 ≤ s.m_unwrapHeight)
    (h2 : s.m_unwrapHeight ≤ 4294967296) :
    rowCounters s = (List.range' 1 (s.m_unwrapHeight - 1)).reverse := by
  unfold rowCounters
  rw [toUInt32_of_nonneg _ (by omega) (by omega)]
  congr 2
  omega

theorem length_rowCounters (s : BubbleScopeUnwrapper) (h1 : 1 ≤ s.m_unwrapHeight)
    (h2 : s.m_unwrapHeight ≤ 4294967296) :
    (rowCounters s).length = s.m_unwrapHeight - 1 := by
  rw [rowCounters_eq s h1 h2, List.length_reverse, List.length_range']

/-- Generation on a state configured with unwrap width 900 and inner radius 0.1 whose
geometry passes the check: the flag is true, the first `285 * 900 * 3` entries are the
ones the loops write and the rest is what the allocation found in memory. -/
theorem configure_900_generate (m : MathLib) (junk : Nat → Nat) (u v max : ℚ)
    (hu : 0 ≤ u ∧ u ≤ 1) (hv : 0 ≤ v ∧ v ≤ 1) (hmax : 1 / 10 < max ∧ max ≤ 1 / 2)
    (ow oh : Nat) (how : ow < 4294967296) (hoh : oh < 4294967296)
    (hfeas : (ow : ℚ) * max * 2 < (oh : ℚ) + 1) :
    (configure 900 ow oh u v (1 / 10) max 0).generateTransformation m junk
      = some (true, { configure 900 ow oh u v (1 / 10) max 0 with
          m_transformation := some
            (rowEntries m (configure 900 ow oh u v (1 / 10) max 0) (List.range' 1 285).reverse
              ++ ((List.range 772200).map junk).drop 769500) }) := by
  have hs := configure_900 u v max hu hv hmax ow oh how hoh
  generalize configure 900 ow oh u v (1 / 10) max 0 = s at hs ⊢
  have hUH : s.m_unwrapHeight = 286 := by rw [hs]
  have hUW : s.m_unwrapWidth = 900 := by rw [hs]
  have hN : s.m_outMatSize = 772200 := by rw [hs]
  have hW : s.m_originalWidth = ow := by rw [hs]
  have hH : s.m_originalHeight = oh := by rw [hs]
  have hR : s.m_radiusMax = max := by rw [hs]
  have hrows : rowCounters s = (List.range' 1 285).reverse := by
    rw [rowCounters_eq s (by omega) (by omega), hUH]
  have hchk : pixelSpan s ≤ s.m_originalHeight := by
    have hiff := pixelSpan_gt_iff s (by rw [hR]; linarith [hmax.1]) (by rw [hR]; exact hmax.2)
      (by rw [hW]; exact how)
    rw [hW, hH, hR] at hiff
    by_contra hc
    have := hiff.mp (by rw [hH] at hc; omega)
    linarith
  have hlen : (rowCounters s).length = 285 := by
    rw [hrows, List.length_reverse, List.length_range']
  have hcount : 3 * s.m_unwrapWidth * (rowCounters s).length = 769500 := by
    rw [hlen, hUW]
  have hrange : List.range s.m_outMatSize = List.range 772200 := by rw [hN]
  rw [generateTransformation_of_le m junk s hchk (by rw [hcount, hN]; norm_num),
    hcount, hrange, hrows]

/-- C4: in the scenario of the spec (source 640 by 480, centre (0.5, 0.5), inner radius 0.1,
no offset, unwrap width 900) `generateTransformation` returns false with outer radius 0.4
and true with outer radius 0.3, whatever the math library and the memory contents. -/
theorem scenario_640_480 :
    (∀ (m : MathLib) (junk : Nat → Nat),
      ((configure 900 640 480 (1 / 2) (1 / 2) (1 / 10) (2 / 5) 0).generateTransformation
        m junk).map Prod.fst = some false) ∧
    (∀ (m : MathLib) (junk : Nat → Nat),
      ((configure 900 640 480 (1 / 2) (1 / 2) (1 / 10) (3 / 10) 0).generateTransformation
        m junk).map Prod.fst = some true) := by
  constructor
  · intro m junk
    have hs := configure_900 (1 / 2) (1 / 2) (2 / 5) (by norm_num) (by norm_num) (by norm_num)
      640 480 (by norm_num) (by norm_num)
    simp only [Nat.cast_ofNat] at hs
    rw [generateTransformation_false_iff, pixelSpan_gt_iff _ (by rw [hs]; norm_num)
      (by rw [hs]; norm_num) (by rw [hs]; norm_num), hs]
    norm_num
  · intro m junk
    have hg := configure_900_generate m junk (1 / 2) (1 / 2) (3 / 10) (by norm_num)
      (by norm_num) (by norm_num) 640 480 (by norm_num) (by norm_num) (by norm_num)
    simp only [Nat.cast_ofNat] at hg
    rw [hg]
    rfl

theorem store_length {a b : List Nat} {k v : Nat} (h : store a k v = some b) :
    b.length = a.length := by
  unfold store at h
  split_ifs at h
  cases h
  simp

theorem gatherStep_eq (t src out : List Nat) (i e : Nat) (hi : i < out.length)
    (he : t[i]? = some e) (hsrc : e < src.length) :
    gatherStep t (src, out) i = some (src, out.set i src[e]) := by
  unfold gatherStep
  simp only [List.get?_eq_getElem?, he, Option.some_bind, List.getElem?_eq_getElem hsrc,
    store_of_lt _ hi]

theorem gatherLoop_eq (t src : List Nat) :
    ∀ (is : List Nat) (out : List Nat),
      (∀ i ∈ is, i < out.length ∧ ∃ e, t[i]? = some e ∧ e < src.length) →
      ∃ out1, gatherLoop t is (src, out) = some (src, out1) ∧ out1.length = out.length ∧
        (∀ i ∈ is, ∃ e, t[i]? = some e ∧ e < src.length ∧ out1[i]? = src[e]?) ∧
        (∀ i, i ∉ is → out1[i]? = out[i]?)
  | [], out, _ => ⟨out, rfl, rfl, by simp, by simp⟩
  | i :: is, out, h => by
    obtain ⟨hi, e, he, hsrc⟩ := h i (List.mem_cons_self _ _)
    have hrest : ∀ i1 ∈ is, i1 < (out.set i src[e]).length
        ∧ ∃ e1, t[i1]? = some e1 ∧ e1 < src.length := by
      intro i1 hi1
      rw [List.length_set]
      exact h i1 (List.mem_cons_of_mem _ hi1)
    obtain ⟨out1, hrun, hlen, hin, hout⟩ := gatherLoop_eq t src is (out.set i src[e]) hrest
    refine ⟨out1, ?_, ?_, ?_, ?_⟩
    · unfold gatherLoop
      rw [gatherStep_eq t src out i e hi he hsrc, Option.some_bind, hrun]
    · rw [hlen, List.length_set]
    · intro i1 hi1
      by_cases hmem : i1 ∈ is
      · exact hin i1 hmem
      · have h1 : i1 = i := by
          rcases List.mem_cons.mp hi1 with h1 | h1
          · exact h1
          · exact absurd h1 hmem
        subst h1
        refine ⟨e, he, hsrc, ?_⟩
        rw [hout i1 hmem, List.getElem?_set_self hi, List.getElem?_eq_getElem hsrc]
    · intro i1 hi1
      have hne : i ≠ i1 := fun hc => hi1 (hc ▸ List.mem_cons_self _ _)
      have hnot : i1 ∉ is := fun hc => hi1 (List.mem_cons_of_mem _ hc)
      rw [hout i1 hnot, List.getElem?_set_ne hne]

theorem gatherLoop_length (t : List Nat) :
    ∀ (is : List Nat) (mem mem1 : List Nat × List Nat),
      gatherLoop t is mem = some mem1 → mem1.1 = mem.1 ∧ mem1.2.length = mem.2.length
  | [], mem, mem1, h => by
    unfold gatherLoop at h
    cases h
    exact ⟨rfl, rfl⟩
  | i :: is, mem, mem1, h => by
    unfold gatherLoop at h
    cases hs : gatherStep t mem i with
    | none => rw [hs] at h; simp at h
    | some mem2 =>
      rw [hs, Option.some_bind] at h
      obtain ⟨h1, h2⟩ := gatherLoop_length t is mem2 mem1 h
      unfold gatherStep at hs
      cases hk : t.get? i with
      | none => rw [hk] at hs; simp at hs
      | some k =>
        rw [hk, Option.some_bind] at hs
        cases hb : mem.1.get? k with
        | none => rw [hb] at hs; simp at hs
        | some b =>
          rw [hb, Option.some_bind] at hs
          cases ho : store mem.2 i b with
          | none => rw [ho] at hs; simp at hs
          | some o =>
            rw [ho, Option.some_bind] at hs
            cases hs
            exact ⟨h1, by rw [h2]; exact store_length ho⟩

theorem unwrap_eq (s : BubbleScopeUnwrapper) (t imageIn : List Nat)
    (ht : s.m_transformation = some t)
    (hfit : s.m_outMatSize ≤ s.m_unwrapHeight * s.m_unwrapWidth * 3)
    (hsrc : ∀ k < s.m_outMatSize, ∃ e, t[k]? = some e ∧ e < imageIn.length) :
    ∃ out, s.unwrap imageIn = some (true, imageIn, some out) ∧
      out.length = s.m_unwrapWidth * s.m_unwrapHeight * 3 ∧
      (∀ k < s.m_outMatSize,
        ∃ e, t[k]? = some e ∧ e < imageIn.length ∧ out[k]? = imageIn[e]?) ∧
      (∀ k, s.m_outMatSize ≤ k → k < out.length → out[k]? = some 0) := by
  have hpre : ∀ i ∈ List.range s.m_outMatSize,
      i < (List.replicate (s.m_unwrapHeight * s.m_unwrapWidth * 3) 0).length
        ∧ ∃ e, t[i]? = some e ∧ e < imageIn.length := by
    intro i hi
    rw [List.mem_range] at hi
    rw [List.length_replicate]
    exact ⟨by omega, hsrc i hi⟩
  obtain ⟨out, hrun, hlen, hin, hout⟩ := gatherLoop_eq t imageIn _ _ hpre
  rw [List.length_replicate] at hlen
  refine ⟨out, ?_, ?_, ?_, ?_⟩
  · unfold BubbleScopeUnwrapper.unwrap
    rw [ht]
    simp only [hrun, Option.some_bind]
  · rw [hlen]; ring
  · intro k hk
    exact hin k (List.mem_range.mpr hk)
  · intro k hk hklen
    rw [hout k (by rw [List.mem_range]; omega), List.getElem?_replicate_of_lt (by omega)]

/-- C6: when a table is present that has an entry for every output byte, each such entry
an offset inside the source image, `unwrap` returns true, the image it assigns has
`unwrapWidth * unwrapHeight * 3` bytes, byte `k` of it is the source byte at offset
`table[k]` for every `k` below `outputPixelCount`, unchanged, and the source bytes are the
same after the call. -/
theorem unwrap_gathers (s : BubbleScopeUnwrapper) (t imageIn : List Nat)
    (ht : s.m_transformation = some t)
    (hfit : s.m_outMatSize ≤ s.m_unwrapHeight * s.m_unwrapWidth * 3)
    (hsrc : ∀ k < s.m_outMatSize, ∃ e, t[k]? = some e ∧ e < imageIn.length) :
    ∃ out, s.unwrap imageIn = some (true, imageIn, some out) ∧
      out.length = s.m_unwrapWidth * s.m_unwrapHeight * 3 ∧
      ∀ k < s.m_outMatSize,
        ∃ e, t[k]? = some e ∧ e < imageIn.length ∧ out[k]? = imageIn[e]? := by
  obtain ⟨out, h1, h2, h3, -⟩ := unwrap_eq s t imageIn ht hfit hsrc
  exact ⟨out, h1, h2, h3⟩

/-! Source offsets of a centred geometry -/

theorem clamp_pos_le (x : ℚ) (h : 0 < x) :
    0 < (if x > 1 then 1 else x) ∧ (if x > 1 then 1 else x) ≤ 1 := by
  split_ifs with h1
  · exact ⟨by norm_num, le_refl _⟩
  · exact ⟨h, not_lt.mp h1⟩

theorem truncToInt_bound (n : Nat) (hn : 0 < n) (c : ℚ) (h0 : 0 < c) (h1 : c ≤ 1) :
    0 ≤ truncToInt ((1 - c) * (n : ℚ)) ∧ truncToInt ((1 - c) * (n : ℚ)) ≤ (n : Int) - 1 := by
  have hnq : (0 : ℚ) < (n : ℚ) := by exact_mod_cast hn
  have hq0 : (0 : ℚ) ≤ (1 - c) * (n : ℚ) := mul_nonneg (by linarith) hnq.le
  have hqn : (1 - c) * (n : ℚ) < ((n : Int) : ℚ) := by
    push_cast
    nlinarith
  rw [truncToInt_of_nonneg hq0]
  refine ⟨Int.floor_nonneg.mpr hq0, ?_⟩
  have := Int.floor_lt.mpr hqn
  omega

theorem toUInt32_le (z : Int) (h : 0 ≤ z) : ((toUInt32 z : Nat) : Int) ≤ z := by
  unfold toUInt32
  omega

theorem offset_lt (W H : Nat) (x y : Int) (hx0 : 0 ≤ x) (hx : x ≤ (W : Int) - 1)
    (hy0 : 0 ≤ y) (hy : y ≤ (H : Int) - 1) :
    toUInt32 ((y * (W : Int) + x) * 3) + 2 < W * H * 3 := by
  have hW : (0 : Int) ≤ (W : Int) := Int.ofNat_nonneg _
  have hyW : y * (W : Int) ≤ ((H : Int) - 1) * (W : Int) := mul_le_mul_of_nonneg_right hy hW
  have hyW0 : 0 ≤ y * (W : Int) := mul_nonneg hy0 hW
  have hz0 : 0 ≤ (y * (W : Int) + x) * 3 := by omega
  have hle := toUInt32_le _ hz0
  have hexp : ((H : Int) - 1) * (W : Int) = ((W * H : Nat) : Int) - (W : Int) := by
    push_cast; ring
  rw [hexp] at hyW
  have : ((toUInt32 ((y * (W : Int) + x) * 3) + 2 : Nat) : Int) < ((W * H * 3 : Nat) : Int) := by
    push_cast
    push_cast at hyW
    omega
  exact_mod_cast this

/-- With the centre of projection in the middle of the frame, a radius band as
`imageRadius` leaves it and an annulus that fits the frame height, every offset the
generator computes for a row counter below `unwrapHeight` names a byte triple inside a
frame of `originalWidth * originalHeight` pixels. -/
theorem oldPixelIndex_lt (m : MathLib) (s : BubbleScopeUnwrapper) (i j : Nat)
    (hW : 0 < s.m_originalWidth) (hH : 0 < s.m_originalHeight)
    (huc : s.m_uCentre = 1 / 2) (hvc : s.m_vCentre = 1 / 2) (hband : RadiusBand s)
    (hfeas : (s.m_originalWidth : ℚ) * s.m_radiusMax * 2 ≤ (s.m_originalHeight : ℚ))
    (hi : i < s.m_unwrapHeight) :
    oldPixelIndex m s i j + 2 < s.m_originalWidth * s.m_originalHeight * 3 := by
  obtain ⟨hr0, hr1, hr2⟩ := hband
  have hWq : (0 : ℚ) < (s.m_originalWidth : ℚ) := by exact_mod_cast hW
  have hHq : (0 : ℚ) < (s.m_originalHeight : ℚ) := by exact_mod_cast hH
  have hUq : (0 : ℚ) < (s.m_unwrapHeight : ℚ) := by
    have : 0 < s.m_unwrapHeight := by omega
    exact_mod_cast this
  have hratio0 : (0 : ℚ) ≤ (i : ℚ) / (s.m_unwrapHeight : ℚ) := by positivity
  have hratio1 : (i : ℚ) / (s.m_unwrapHeight : ℚ) < 1 := by
    rw [div_lt_one hUq]
    exact_mod_cast hi
  have hamp0 : 0 ≤ (s.m_radiusMax - s.m_radiusMin) * ((i : ℚ) / (s.m_unwrapHeight : ℚ))
      + s.m_radiusMin := by
    have := mul_nonneg (sub_nonneg.mpr hr1.le) hratio0
    linarith
  have hamp1 : (s.m_radiusMax - s.m_radiusMin) * ((i : ℚ) / (s.m_unwrapHeight : ℚ))
      + s.m_radiusMin < s.m_radiusMax := by
    have := mul_lt_of_lt_one_right (sub_pos.mpr hr1) hratio1
    linarith
  have hasp0 : (0 : ℚ) < (s.m_originalWidth : ℚ) / (s.m_originalHeight : ℚ) := div_pos hWq hHq
  have hasp : (s.m_originalWidth : ℚ) / (s.m_originalHeight : ℚ) * s.m_radiusMax ≤ 1 / 2 := by
    rw [div_mul_eq_mul_div, div_le_iff₀ hHq]
    linarith
  simp only [oldPixelIndex]
  generalize (s.m_radiusMax - s.m_radiusMin) * ((i : ℚ) / (s.m_unwrapHeight : ℚ))
      + s.m_radiusMin = amp at hamp0 hamp1 ⊢
  have hu0 : 0 < (s.m_originalWidth : ℚ) / (s.m_originalHeight : ℚ)
      * m.sin (D_PI * ((j : ℚ) / (s.m_unwrapWidth : ℚ)) + s.m_offsetAngle) * amp
      + s.m_uCentre := by
    rw [huc]
    have hs := m.sin_ge (D_PI * ((j : ℚ) / (s.m_unwrapWidth : ℚ)) + s.m_offsetAngle)
    have h1 : (s.m_originalWidth : ℚ) / (s.m_originalHeight : ℚ) * amp
        < (s.m_originalWidth : ℚ) / (s.m_originalHeight : ℚ) * s.m_radiusMax :=
      mul_lt_mul_of_pos_left hamp1 hasp0
    have h2 : 0 ≤ (s.m_originalWidth : ℚ) / (s.m_originalHeight : ℚ) * amp
        * (m.sin (D_PI * ((j : ℚ) / (s.m_unwrapWidth : ℚ)) + s.m_offsetAngle) + 1) :=
      mul_nonneg (mul_nonneg hasp0.le hamp0) (by linarith)
    nlinarith
  have hv0 : 0 < m.cos (D_PI * ((j : ℚ) / (s.m_unwrapWidth : ℚ)) + s.m_offsetAngle) * amp
      + (1 - s.m_vCentre) := by
    rw [hvc]
    have hc := m.cos_ge (D_PI * ((j : ℚ) / (s.m_unwrapWidth : ℚ)) + s.m_offsetAngle)
    have h2 : 0 ≤ amp
        * (m.cos (D_PI * ((j : ℚ) / (s.m_unwrapWidth : ℚ)) + s.m_offsetAngle) + 1) :=
      mul_nonneg hamp0 (by linarith)
    nlinarith
  have hx := truncToInt_bound s.m_originalWidth hW _ (clamp_pos_le _ hv0).1 (clamp_pos_le _ hv0).2
  have hy := truncToInt_bound s.m_originalHeight hH _ (clamp_pos_le _ hu0).1 (clamp_pos_le _ hu0).2
  exact offset_lt s.m_originalWidth s.m_originalHeight _ _ hx.1 hx.2 hy.1 hy.2

theorem mem_pixelEntries {x p : Nat} (h : x ∈ pixelEntries p) : x ≤ p + 2 := by
  simp only [pixelEntries, List.mem_cons, List.mem_singleton, List.not_mem_nil, or_false] at h
  omega

theorem columnEntries_lt (m : MathLib) (s : BubbleScopeUnwrapper) (i bound : Nat)
    (h : ∀ j, oldPixelIndex m s i j + 2 < bound) :
    ∀ js : List Nat, ∀ x ∈ columnEntries m s i js, x < bound
  | [], x, hx => by simp [columnEntries] at hx
  | j :: js, x, hx => by
    simp only [columnEntries, List.mem_append] at hx
    rcases hx with hx | hx
    · have := mem_pixelEntries hx
      have := h j
      omega
    · exact columnEntries_lt m s i bound h js x hx

theorem rowEntries_lt (m : MathLib) (s : BubbleScopeUnwrapper) (bound : Nat) :
    ∀ is : List Nat, (∀ i ∈ is, ∀ j, oldPixelIndex m s i j + 2 < bound) →
      ∀ x ∈ rowEntries m s is, x < bound
  | [], _, x, hx => by simp [rowEntries] at hx
  | i :: is, h, x, hx => by
    simp only [rowEntries, List.mem_append] at hx
    rcases hx with hx | hx
    · exact columnEntries_lt m s i bound (h i (List.mem_cons_self _ _)) _ x hx
    · exact rowEntries_lt m s bound is (fun i1 hi1 => h i1 (List.mem_cons_of_mem _ hi1)) x hx

theorem rowEntries_head (m : MathLib) (s : BubbleScopeUnwrapper) (i : Nat) (is : List Nat)
    (rest : List Nat) (h : 0 < s.m_unwrapWidth) :
    (rowEntries m s (i :: is) ++ rest)[0]? = some (oldPixelIndex m s i 0) := by
  obtain ⟨n, hn⟩ : ∃ n, s.m_unwrapWidth = n + 1 := ⟨s.m_unwrapWidth - 1, by omega⟩
  simp [rowEntries, hn, List.range_succ_eq_map, columnEntries, pixelEntries]

theorem rows_285 : (List.range' 1 285).reverse = 285 :: (List.range' 1 284).reverse := by
  have h : List.range' 1 285 = List.range' 1 284 ++ [285] := List.range'_concat 1 284
  rw [h, List.reverse_append]
  rfl

theorem mem_rows_285 {i : Nat} (h : i ∈ (List.range' 1 285).reverse) : i < 286 := by
  rw [List.mem_reverse, List.mem_range'_1] at h
  omega

/-! What a call leaves behind -/

theorem writePixel_length {t t1 : List Nat} {index p : Nat} (h : writePixel t index p = some t1) :
    t1.length = t.length := by
  unfold writePixel at h
  cases h1 : store t index p with
  | none => rw [h1] at h; simp at h
  | some a =>
    rw [h1, Option.some_bind] at h
    cases h2 : store a (index + 1) (p + 1) with
    | none => rw [h2] at h; simp at h
    | some b =>
      rw [h2, Option.some_bind] at h
      rw [store_length h, store_length h2, store_length h1]

theorem columnLoop_length (m : MathLib) (s : BubbleScopeUnwrapper) (i : Nat) :
    ∀ (js : List Nat) (index : Nat) (t : List Nat) (r : Nat × List Nat),
      columnLoop m s i js index t = some r → r.2.length = t.length
  | [], index, t, r, h => by
    unfold columnLoop at h
    cases h
    rfl
  | j :: js, index, t, r, h => by
    unfold columnLoop at h
    cases h1 : writePixel t index (oldPixelIndex m s i j) with
    | none => rw [h1] at h; simp at h
    | some t1 =>
      rw [h1, Option.some_bind] at h
      rw [columnLoop_length m s i js _ _ _ h, writePixel_length h1]

theorem rowLoop_length (m : MathLib) (s : BubbleScopeUnwrapper) :
    ∀ (is : List Nat) (index : Nat) (t : List Nat) (r : Nat × List Nat),
      rowLoop m s is index t = some r → r.2.length = t.length
  | [], index, t, r, h => by
    unfold rowLoop at h
    cases h
    rfl
  | i :: is, index, t, r, h => by
    unfold rowLoop at h
    cases h1 : columnLoop m s i (List.range s.m_unwrapWidth) index t with
    | none => rw [h1] at h; simp at h
    | some r1 =>
      rw [h1, Option.some_bind] at h
      rw [rowLoop_length m s is _ _ _ h, columnLoop_length m s i _ _ _ _ h1]

theorem generateTransformation_true_state (m : MathLib) (junk : Nat → Nat)
    (s s1 : BubbleScopeUnwrapper) (h : s.generateTransformation m junk = some (true, s1)) :
    ∃ t, s1 = { s with m_transformation := some t } ∧ t.length = s.m_outMatSize := by
  unfold BubbleScopeUnwrapper.generateTransformation at h
  simp only at h
  split_ifs at h with hc
  · simp at h
  · cases hr : rowLoop m s (rowCounters s) 0 ((List.range s.m_outMatSize).map junk) with
    | none => rw [hr] at h; simp at h
    | some r =>
      rw [hr, Option.some_bind] at h
      have hl := rowLoop_length m s _ _ _ _ hr
      simp only [List.length_map, List.length_range] at hl
      simp only [Option.some.injEq, Prod.mk.injEq, true_and] at h
      exact ⟨r.2, h.symm, hl⟩

theorem generateTransformation_false_state (m : MathLib) (junk : Nat → Nat)
    (s s1 : BubbleScopeUnwrapper) (h : s.generateTransformation m junk = some (false, s1)) :
    s1 = { s with m_transformation := some ((List.range s.m_outMatSize).map junk) } := by
  have hc : pixelSpan s > s.m_originalHeight := by
    rw [← generateTransformation_false_iff m junk s, h]
    rfl
  rw [generateTransformation_of_gt m junk s hc] at h
  simp only [Option.some.injEq, Prod.mk.injEq, true_and] at h
  exact h.symm

theorem unwrap_of_table (s : BubbleScopeUnwrapper) (t imageIn : List Nat)
    (ht : s.m_transformation = some t) :
    (s.unwrap imageIn).map Prod.fst ≠ some false := by
  unfold BubbleScopeUnwrapper.unwrap
  rw [ht]
  simp only
  cases gatherLoop t (List.range s.m_outMatSize)
      (imageIn, List.replicate (s.m_unwrapHeight * s.m_unwrapWidth * 3) 0) with
  | none => simp
  | some mem => simp

theorem unwrap_true_length (s : BubbleScopeUnwrapper) (imageIn r out : List Nat)
    (h : s.unwrap imageIn = some (true, r, some out)) :
    out.length = s.m_unwrapWidth * s.m_unwrapHeight * 3 ∧ r = imageIn := by
  unfold BubbleScopeUnwrapper.unwrap at h
  cases ht : s.m_transformation with
  | none => rw [ht] at h; simp at h
  | some t =>
    rw [ht] at h
    simp only at h
    cases hg : gatherLoop t (List.range s.m_outMatSize)
        (imageIn, List.replicate (s.m_unwrapHeight * s.m_unwrapWidth * 3) 0) with
    | none => rw [hg] at h; simp at h
    | some mem =>
      rw [hg, Option.some_bind] at h
      obtain ⟨h1, h2⟩ := gatherLoop_length t _ _ _ hg
      simp only [Option.some.injEq, Prod.mk.injEq, true_and] at h
      rw [← h.2, ← h.1, h2, List.length_replicate]
      exact ⟨by ring, h1⟩

/-! The scenario of the spec -/

/-- C2 fails in the code. In the scenario of the spec with outer radius 0.4 the call of
`generateTransformation` returns false, but the array it allocated before the check stays
in `m_transformation`, holding whatever the memory held, and the next `unwrap` passes its
null test: it does not return false, for any source image. -/
theorem failed_generation_leaves_table (m : MathLib) (junk : Nat → Nat) (imageIn : List Nat) :
    ∃ s1, (configure 900 640 480 (1 / 2) (1 / 2) (1 / 10) (2 / 5) 0).generateTransformation
          m junk = some (false, s1) ∧
      s1.m_transformation = some ((List.range 772200).map junk) ∧
      (s1.unwrap imageIn).map Prod.fst ≠ some false := by
  have hs := configure_900 (1 / 2) (1 / 2) (2 / 5) (by norm_num) (by norm_num) (by norm_num)
    640 480 (by norm_num) (by norm_num)
  simp only [Nat.cast_ofNat] at hs
  have hf : ((configure 900 640 480 (1 / 2) (1 / 2) (1 / 10) (2 / 5) 0).generateTransformation
      m junk).map Prod.fst = some false := by
    rw [generateTransformation_false_iff, pixelSpan_gt_iff _ (by rw [hs]; norm_num)
      (by rw [hs]; norm_num) (by rw [hs]; norm_num), hs]
    norm_num
  rw [generateTransformation_false_iff] at hf
  have hg := generateTransformation_of_gt m junk _ hf
  refine ⟨_, hg, ?_, unwrap_of_table _ _ imageIn rfl⟩
  show some ((List.range
    (configure 900 640 480 (1 / 2) (1 / 2) (1 / 10) (2 / 5) 0).m_outMatSize).map junk) = _
  rw [hs]

theorem oldPixelIndex_offcentre (m : MathLib) :
    oldPixelIndex m (configure 900 640 480 0 (1 / 2) (1 / 10) (3 / 10) 0) 285 0 = 921984 := by
  have hs := configure_900 0 (1 / 2) (3 / 10) (by norm_num) (by norm_num) (by norm_num)
    640 480 (by norm_num) (by norm_num)
  simp only [Nat.cast_ofNat] at hs
  rw [hs]
  simp only [oldPixelIndex, Nat.cast_zero, zero_div, mul_zero, add_zero, m.sin_zero, m.cos_zero]
  norm_num [truncToInt, toUInt32]
  rfl

/-- C1 fails in the code. In the scenario of the spec with outer radius 0.3 and the centre
of projection at the left edge (`centreU = 0`, which `originalCentre` accepts) generation
returns true and leaves a table of 772200 entries of which entry 0 is 921984, beyond the
`640 * 480 * 3 = 921600` bytes of a frame, and the last entry is what the memory held
before the call. -/
theorem offcentre_entry_outside_frame (m : MathLib) (junk : Nat → Nat) :
    ∃ t, (configure 900 640 480 0 (1 / 2) (1 / 10) (3 / 10) 0).generateTransformation m junk
        = some (true, { configure 900 640 480 0 (1 / 2) (1 / 10) (3 / 10) 0 with
            m_transformation := some t }) ∧
      t.length = 772200 ∧ t[0]? = some 921984 ∧ t[772199]? = some (junk 772199) ∧
      (configure 900 640 480 0 (1 / 2) (1 / 10) (3 / 10) 0).m_originalWidth
        * (configure 900 640 480 0 (1 / 2) (1 / 10) (3 / 10) 0).m_originalHeight * 3 = 921600 := by
  have hs := configure_900 0 (1 / 2) (3 / 10) (by norm_num) (by norm_num) (by norm_num)
    640 480 (by norm_num) (by norm_num)
  have hg := configure_900_generate m junk 0 (1 / 2) (3 / 10) (by norm_num)
    (by norm_num) (by norm_num) 640 480 (by norm_num) (by norm_num) (by norm_num)
  simp only [Nat.cast_ofNat] at hs hg
  have hUW : (configure 900 640 480 0 (1 / 2) (1 / 10) (3 / 10) 0).m_unwrapWidth = 900 := by
    rw [hs]
  have hlen : (rowEntries m (configure 900 640 480 0 (1 / 2) (1 / 10) (3 / 10) 0)
      (List.range' 1 285).reverse).length = 769500 := by
    rw [length_rowEntries, hUW, List.length_reverse, List.length_range']
  refine ⟨_, hg, ?_, ?_, ?_, ?_⟩
  · rw [List.length_append, hlen, List.length_drop, List.length_map, List.length_range]
  · rw [rows_285, rowEntries_head m _ 285 _ _ (by rw [hUW]; norm_num), oldPixelIndex_offcentre]
  · rw [List.getElem?_append_right (by rw [hlen]; norm_num), hlen, List.getElem?_drop,
      List.getElem?_map, List.getElem?_range (by norm_num)]
    rfl
  · rw [hs]
    norm_num

theorem centred_fields :
    (configure 900 640 480 (1 / 2) (1 / 2) (1 / 10) (3 / 10) 0).m_originalWidth = 640 ∧
    (configure 900 640 480 (1 / 2) (1 / 2) (1 / 10) (3 / 10) 0).m_originalHeight = 480 ∧
    (configure 900 640 480 (1 / 2) (1 / 2) (1 / 10) (3 / 10) 0).m_unwrapWidth = 900 ∧
    (configure 900 640 480 (1 / 2) (1 / 2) (1 / 10) (3 / 10) 0).m_unwrapHeight = 286 ∧
    (configure 900 640 480 (1 / 2) (1 / 2) (1 / 10) (3 / 10) 0).m_outMatSize = 772200 := by
  have hs := configure_900 (1 / 2) (1 / 2) (3 / 10) (by norm_num) (by norm_num) (by norm_num)
    640 480 (by norm_num) (by norm_num)
  simp only [Nat.cast_ofNat] at hs
  rw [hs]
  exact ⟨rfl, rfl, rfl, rfl, rfl⟩

theorem centred_offsets (m : MathLib) (i j : Nat) (hi : i < 286) :
    oldPixelIndex m (configure 900 640 480 (1 / 2) (1 / 2) (1 / 10) (3 / 10) 0) i j + 2
      < 921600 := by
  have hs := configure_900 (1 / 2) (1 / 2) (3 / 10) (by norm_num) (by norm_num) (by norm_num)
    640 480 (by norm_num) (by norm_num)
  simp only [Nat.cast_ofNat] at hs
  have h := oldPixelIndex_lt m (configure 900 640 480 (1 / 2) (1 / 2) (1 / 10) (3 / 10) 0) i j
    (by rw [hs]; norm_num) (by rw [hs]; norm_num) (by rw [hs]) (by rw [hs])
    (by rw [hs]; unfold RadiusBand; norm_num) (by rw [hs]; norm_num) (by rw [hs]; exact hi)
  rw [centred_fields.1, centred_fields.2.1] at h
  exact h

/-- Generation in the scenario of the spec with outer radius 0.3: the flag is true, the
table has 772200 entries, the first 769500 are offsets inside a 640 by 480 frame and the
last 2700 are what the memory held. -/
theorem centred_table (m : MathLib) (junk : Nat → Nat) :
    ∃ t, (configure 900 640 480 (1 / 2) (1 / 2) (1 / 10) (3 / 10) 0).generateTransformation
          m junk
        = some (true, { configure 900 640 480 (1 / 2) (1 / 2) (1 / 10) (3 / 10) 0 with
            m_transformation := some t }) ∧
      t.length = 772200 ∧
      (∀ k < 769500, ∃ e, t[k]? = some e ∧ e < 921600) ∧
      (∀ k, 769500 ≤ k → k < 772200 → t[k]? = some (junk k)) := by
  have hg := configure_900_generate m junk (1 / 2) (1 / 2) (3 / 10) (by norm_num)
    (by norm_num) (by norm_num) 640 480 (by norm_num) (by norm_num) (by norm_num)
  simp only [Nat.cast_ofNat] at hg
  have hlen : (rowEntries m (configure 900 640 480 (1 / 2) (1 / 2) (1 / 10) (3 / 10) 0)
      (List.range' 1 285).reverse).length = 769500 := by
    rw [length_rowEntries, centred_fields.2.2.1, List.length_reverse, List.length_range']
  refine ⟨_, hg, ?_, ?_, ?_⟩
  · rw [List.length_append, hlen, List.length_drop, List.length_map, List.length_range]
  · intro k hk
    have hk1 : k < (rowEntries m (configure 900 640 480 (1 / 2) (1 / 2) (1 / 10) (3 / 10) 0)
        (List.range' 1 285).reverse).length := by rw [hlen]; exact hk
    have hget : (rowEntries m (configure 900 640 480 (1 / 2) (1 / 2) (1 / 10) (3 / 10) 0)
          (List.range' 1 285).reverse
        ++ List.drop 769500 (List.map junk (List.range 772200)))[k]?
        = some ((rowEntries m (configure 900 640 480 (1 / 2) (1 / 2) (1 / 10) (3 / 10) 0)
          (List.range' 1 285).reverse)[k]) := by
      rw [List.getElem?_append_left hk1, List.getElem?_eq_getElem hk1]
    have hlt := rowEntries_lt m (configure 900 640 480 (1 / 2) (1 / 2) (1 / 10) (3 / 10) 0)
      921600 (List.range' 1 285).reverse
      (fun i hi j => by have := centred_offsets m i j (mem_rows_285 hi); omega) _
      (List.getElem_mem hk1)
    exact ⟨_, hget, hlt⟩
  · intro k hk1 hk2
    have e : 769500 + (k - 769500) = k := by omega
    rw [List.getElem?_append_right (by rw [hlen]; exact hk1), hlen, List.getElem?_drop, e,
      List.getElem?_map, List.getElem?_range hk2]
    rfl

theorem length_frame640x480 (b : Nat) : (frame640x480 b).length = 921600 := by
  unfold frame640x480
  rw [List.length_replicate]

theorem unwrapWidth_4 (s : BubbleScopeUnwrapper) :
    (s.unwrapWidth 4).2
      = { s with m_unwrapWidth := 4, m_unwrapHeight := 1, m_outMatSize := 12 } := by
  have e1 : toUInt32 4 = 4 := by decide
  have e2 : truncToInt (((4 : Nat) : ℚ) / D_PI) = 1 := by
    unfold truncToInt D_PI
    norm_num
  have e3 : toUInt32 1 = 1 := by decide
  have e4 : toUInt32 (((4 : Nat) : Int) * ((1 : Nat) : Int) * 3) = 12 := by decide
  simp only [BubbleScopeUnwrapper.unwrapWidth, e1, e2, e3, e4]
  rfl

theorem run_derived (c : SetterCall) (s : BubbleScopeUnwrapper)
    (h : ∀ w, c ≠ SetterCall.unwrapWidth w) :
    (c.run s).2.m_unwrapWidth = s.m_unwrapWidth ∧
    (c.run s).2.m_unwrapHeight = s.m_unwrapHeight ∧
    (c.run s).2.m_outMatSize = s.m_outMatSize := by
  cases c with
  | unwrapWidth width => exact absurd rfl (h width)
  | originalSize width height =>
    simp only [SetterCall.run, BubbleScopeUnwrapper.originalSize]
    split_ifs <;> exact ⟨rfl, rfl, rfl⟩
  | originalCentre u v =>
    simp only [SetterCall.run, BubbleScopeUnwrapper.originalCentre]
    split_ifs <;> exact ⟨rfl, rfl, rfl⟩
  | imageRadius min max =>
    simp only [SetterCall.run, BubbleScopeUnwrapper.imageRadius]
    split_ifs <;> exact ⟨rfl, rfl, rfl⟩
  | offsetAngle angle =>
    simp only [SetterCall.run, BubbleScopeUnwrapper.offsetAngle]
    split_ifs <;> exact ⟨rfl, rfl, rfl⟩

theorem runSetters_derived (calls : List SetterCall) :
    ∀ s : BubbleScopeUnwrapper, (∀ c ∈ calls, ∀ w, c ≠ SetterCall.unwrapWidth w) →
      (runSetters s calls).m_unwrapWidth = s.m_unwrapWidth ∧
      (runSetters s calls).m_unwrapHeight = s.m_unwrapHeight ∧
      (runSetters s calls).m_outMatSize = s.m_outMatSize := by
  induction calls with
  | nil => intro s _; exact ⟨rfl, rfl, rfl⟩
  | cons c cs ih =>
    intro s h
    have h1 := run_derived c s (h c (List.mem_cons_self _ _))
    have h2 := ih (c.run s).2 (fun c1 hc1 => h c1 (List.mem_cons_of_mem _ hc1))
    exact ⟨h2.1.trans h1.1, h2.2.1.trans h1.2.1, h2.2.2.trans h1.2.2⟩

/-- C6 in the scenario of the spec with outer radius 0.3, on memory that was zero before
the allocation: the table generated there has an entry inside the frame for every output
byte, and `unwrap` of a 640 by 480 frame gathers through it. -/
theorem unwrap_gathers_witness :
    ∃ t out,
      (configure 900 640 480 (1 / 2) (1 / 2) (1 / 10) (3 / 10) 0).generateTransformation
          circleLib (fun _ => 0)
        = some (true, { configure 900 640 480 (1 / 2) (1 / 2) (1 / 10) (3 / 10) 0 with
            m_transformation := some t }) ∧
      BubbleScopeUnwrapper.unwrap
          { configure 900 640 480 (1 / 2) (1 / 2) (1 / 10) (3 / 10) 0 with
            m_transformation := some t } (frame640x480 7)
        = some (true, frame640x480 7, some out) ∧
      out.length = 900 * 286 * 3 ∧
      ∀ k < 772200, ∃ e, t[k]? = some e ∧ e < (frame640x480 7).length ∧
        out[k]? = (frame640x480 7)[e]? := by
  obtain ⟨t, hgen, hlen, hwritten, hrest⟩ := centred_table circleLib (fun _ => 0)
  have hsrc : ∀ k < 772200, ∃ e, t[k]? = some e ∧ e < (frame640x480 7).length := by
    intro k hk
    rw [length_frame640x480]
    by_cases hk1 : k < 769500
    · exact hwritten k hk1
    · exact ⟨0, hrest k (by omega) hk, by norm_num⟩
  have h := unwrap_gathers
    { configure 900 640 480 (1 / 2) (1 / 2) (1 / 10) (3 / 10) 0 with
      m_transformation := some t } t (frame640x480 7) rfl
    (by
      show (configure 900 640 480 (1 / 2) (1 / 2) (1 / 10) (3 / 10) 0).m_outMatSize
        ≤ (configure 900 640 480 (1 / 2) (1 / 2) (1 / 10) (3 / 10) 0).m_unwrapHeight
          * (configure 900 640 480 (1 / 2) (1 / 2) (1 / 10) (3 / 10) 0).m_unwrapWidth * 3
      rw [centred_fields.2.2.2.2, centred_fields.2.2.2.1, centred_fields.2.2.1])
    (by
      show ∀ k < (configure 900 640 480 (1 / 2) (1 / 2) (1 / 10) (3 / 10) 0).m_outMatSize, _
      rw [centred_fields.2.2.2.2]
      exact hsrc)
  obtain ⟨out, h1, h2, h3⟩ := h
  refine ⟨t, out, hgen, h1, ?_, ?_⟩
  · rw [h2]
    show (configure 900 640 480 (1 / 2) (1 / 2) (1 / 10) (3 / 10) 0).m_unwrapWidth
      * (configure 900 640 480 (1 / 2) (1 / 2) (1 / 10) (3 / 10) 0).m_unwrapHeight * 3 = _
    rw [centred_fields.2.2.2.1, centred_fields.2.2.1]
  · intro k hk
    exact h3 k (by
      show k < (configure 900 640 480 (1 / 2) (1 / 2) (1 / 10) (3 / 10) 0).m_outMatSize
      rw [centred_fields.2.2.2.2]
      exact hk)

/-- C7 fails as stated: in the scenario of the spec with outer radius 0.3 the table is
generated for an output of `900 * 286 * 3 = 772200` bytes and has that many entries; after
a later `unwrapWidth(4)` the next `unwrap` of a 640 by 480 frame returns true with an
image of 12 bytes, the size for the width in force at the call. -/
theorem output_size_follows_current_width :
    (configure 900 640 480 (1 / 2) (1 / 2) (1 / 10) (3 / 10) 0).m_unwrapWidth
      * (configure 900 640 480 (1 / 2) (1 / 2) (1 / 10) (3 / 10) 0).m_unwrapHeight * 3
      = 772200 ∧
    ∀ (m : MathLib) (junk : Nat → Nat), ∃ s1 t out,
      (configure 900 640 480 (1 / 2) (1 / 2) (1 / 10) (3 / 10) 0).generateTransformation
          m junk = some (true, s1) ∧
      s1.m_transformation = some t ∧ t.length = 772200 ∧
      (runSetters s1 [SetterCall.unwrapWidth 4]).unwrap (frame640x480 0)
        = some (true, frame640x480 0, some out) ∧
      out.length = 12 := by
  constructor
  · rw [centred_fields.2.2.2.1, centred_fields.2.2.1]
  · intro m junk
    obtain ⟨t, hgen, hlen, hwritten, -⟩ := centred_table m junk
    have hs2 : runSetters { configure 900 640 480 (1 / 2) (1 / 2) (1 / 10) (3 / 10) 0 with
          m_transformation := some t } [SetterCall.unwrapWidth 4]
        = { configure 900 640 480 (1 / 2) (1 / 2) (1 / 10) (3 / 10) 0 with
            m_transformation := some t, m_unwrapWidth := 4, m_unwrapHeight := 1,
            m_outMatSize := 12 } := by
      show (BubbleScopeUnwrapper.unwrapWidth _ 4).2 = _
      rw [unwrapWidth_4]
    have h := unwrap_eq
      { configure 900 640 480 (1 / 2) (1 / 2) (1 / 10) (3 / 10) 0 with
        m_transformation := some t, m_unwrapWidth := 4, m_unwrapHeight := 1,
        m_outMatSize := 12 } t (frame640x480 0) rfl (by show 12 ≤ 1 * 4 * 3; norm_num)
      (by
        intro k hk
        rw [length_frame640x480]
        exact hwritten k (by
          have : k < 12 := hk
          omega))
    obtain ⟨out, h1, h2, -, -⟩ := h
    refine ⟨_, t, out, hgen, rfl, hlen, ?_, ?_⟩
    · rw [hs2]
      exact h1
    · rw [h2]
      rfl

theorem store_some_lt {a b : List Nat} {k v : Nat} (h : store a k v = some b) :
    k < a.length := by
  unfold store at h
  split_ifs at h with hk
  exact hk

theorem writePixel_some_fits {t t1 : List Nat} {index p : Nat}
    (h : writePixel t index p = some t1) : index + 3 ≤ t.length := by
  unfold writePixel at h
  cases h1 : store t index p with
  | none => rw [h1] at h; simp at h
  | some a =>
    rw [h1, Option.some_bind] at h
    cases h2 : store a (index + 1) (p + 1) with
    | none => rw [h2] at h; simp at h
    | some b =>
      rw [h2, Option.some_bind] at h
      have := store_some_lt h
      rw [store_length h2, store_length h1] at this
      omega

theorem columnLoop_some_fits (m : MathLib) (s : BubbleScopeUnwrapper) (i : Nat) :
    ∀ (js : List Nat) (index : Nat) (t : List Nat) (r : Nat × List Nat),
      columnLoop m s i js index t = some r →
        (js ≠ [] → index + 3 * js.length ≤ t.length) ∧ r.1 = index + 3 * js.length
  | [], index, t, r, h => by
    unfold columnLoop at h
    cases h
    exact ⟨fun hne => absurd rfl hne, by simp⟩
  | j :: js, index, t, r, h => by
    unfold columnLoop at h
    cases h1 : writePixel t index (oldPixelIndex m s i j) with
    | none => rw [h1] at h; simp at h
    | some t1 =>
      rw [h1, Option.some_bind] at h
      obtain ⟨h2, h3⟩ := columnLoop_some_fits m s i js _ _ _ h
      have h4 := writePixel_some_fits h1
      rw [writePixel_length h1] at h2
      simp only [List.length_cons]
      refine ⟨fun _ => ?_, by omega⟩
      by_cases hjs : js = []
      · rw [hjs]; simp only [List.length_nil]; omega
      · have := h2 hjs
        omega

theorem rowLoop_some_fits (m : MathLib) (s : BubbleScopeUnwrapper)
    (hw : 0 < s.m_unwrapWidth) :
    ∀ (is : List Nat) (index : Nat) (t : List Nat) (r : Nat × List Nat),
      rowLoop m s is index t = some r → is ≠ [] →
        index + 3 * s.m_unwrapWidth * is.length ≤ t.length
  | [], index, t, r, _, hne => absurd rfl hne
  | i :: is, index, t, r, h, _ => by
    unfold rowLoop at h
    cases h1 : columnLoop m s i (List.range s.m_unwrapWidth) index t with
    | none => rw [h1] at h; simp at h
    | some r1 =>
      rw [h1, Option.some_bind] at h
      obtain ⟨h2, h3⟩ := columnLoop_some_fits m s i _ _ _ _ h1
      have hne : List.range s.m_unwrapWidth ≠ [] := by
        intro hc
        have := congrArg List.length hc
        rw [List.length_range] at this
        simp at this
        omega
      have h5 := h2 hne
      rw [List.length_range] at h5 h3
      simp only [List.length_cons]
      rw [Nat.mul_succ]
      by_cases his : is = []
      · rw [his]; simp only [List.length_nil]; omega
      · have h4 := rowLoop_some_fits m s hw is _ _ _ h his
        rw [h3, columnLoop_length m s i _ _ _ _ h1] at h4
        omega

theorem generateTransformation_true_fits (m : MathLib) (junk : Nat → Nat)
    (s s1 : BubbleScopeUnwrapper) (h : s.generateTransformation m junk = some (true, s1)) :
    3 * s.m_unwrapWidth * (rowCounters s).length ≤ s.m_outMatSize := by
  unfold BubbleScopeUnwrapper.generateTransformation at h
  simp only at h
  split_ifs at h with hc
  · simp at h
  · cases hr : rowLoop m s (rowCounters s) 0 ((List.range s.m_outMatSize).map junk) with
    | none => rw [hr] at h; simp at h
    | some r =>
      by_cases hw : 0 < s.m_unwrapWidth
      · by_cases hne : rowCounters s = []
        · rw [hne]; simp
        · have := rowLoop_some_fits m s hw _ _ _ _ hr hne
          simp only [List.length_map, List.length_range] at this
          omega
      · have : s.m_unwrapWidth = 0 := by omega
        rw [this]; simp

theorem ctor_widthDerived : WidthDerived BubbleScopeUnwrapper.ctor :=
  Or.inl ⟨rfl, rfl, rfl⟩

theorem run_widthDerived (c : SetterCall) (s : BubbleScopeUnwrapper) (h : WidthDerived s)
    (hint : ∀ w, c = SetterCall.unwrapWidth w → w < 2147483648) :
    WidthDerived (c.run s).2 := by
  by_cases hc : ∀ w, c ≠ SetterCall.unwrapWidth w
  · obtain ⟨h1, h2, h3⟩ := run_derived c s hc
    unfold WidthDerived
    rw [h1, h2, h3]
    exact h
  · push_neg at hc
    obtain ⟨w, rfl⟩ := hc
    by_cases hw : w ≤ 0
    · have : ((SetterCall.unwrapWidth w).run s).2 = s := by
        simp [SetterCall.run, BubbleScopeUnwrapper.unwrapWidth, hw]
      rw [this]
      exact h
    · obtain ⟨-, h1, h2, h3⟩ := unwrapWidth_of_pos s w (by omega) (hint w rfl)
      refine Or.inr ⟨?_, ?_, ?_, ?_⟩
      · show 0 < (s.unwrapWidth w).2.m_unwrapWidth
        rw [h1]; omega
      · show (s.unwrapWidth w).2.m_unwrapWidth < 2147483648
        rw [h1]
        have := hint w rfl
        omega
      · show (s.unwrapWidth w).2.m_unwrapHeight
          = ⌊((s.unwrapWidth w).2.m_unwrapWidth : ℚ) / D_PI⌋.toNat
        rw [h2, h1]
        have : ((w.toNat : Nat) : ℚ) = (w : ℚ) := by
          have : ((w.toNat : Nat) : Int) = w := Int.toNat_of_nonneg (by omega)
          exact_mod_cast this
        rw [this]
      · show (s.unwrapWidth w).2.m_outMatSize
          = ((s.unwrapWidth w).2.m_unwrapWidth * (s.unwrapWidth w).2.m_unwrapHeight * 3)
            % 4294967296
        rw [h3, h1, h2]

theorem runSetters_widthDerived (calls : List SetterCall) :
    ∀ s : BubbleScopeUnwrapper, WidthDerived s →
      (∀ c ∈ calls, ∀ w, c = SetterCall.unwrapWidth w → w < 2147483648) →
      WidthDerived (runSetters s calls) := by
  induction calls with
  | nil => intro s h _; exact h
  | cons c cs ih =>
    intro s h hint
    exact ih (c.run s).2 (run_widthDerived c s h (hint c (List.mem_cons_self _ _)))
      (fun c1 hc1 => hint c1 (List.mem_cons_of_mem _ hc1))

theorem D_PI_lt : D_PI < 7 / 2 := by
  unfold D_PI
  norm_num

/-- When the three fields are as `unwrapWidth` leaves them and the loops of the generator
ran to their end inside the table, the stored pixel count is the product itself: the
32-bit multiplication did not wrap. -/
theorem widthDerived_no_wrap (m : MathLib) (junk : Nat → Nat) (s s1 : BubbleScopeUnwrapper)
    (hD : WidthDerived s) (hgen : s.generateTransformation m junk = some (true, s1)) :
    s.m_outMatSize = s.m_unwrapWidth * s.m_unwrapHeight * 3 := by
  rcases hD with ⟨h1, h2, h3⟩ | ⟨hpos, hlt, hh, hsz⟩
  · rw [h1, h2, h3]
  · have hfit := generateTransformation_true_fits m junk s s1 hgen
    have hq0 : (0 : ℚ) ≤ (s.m_unwrapWidth : ℚ) / D_PI :=
      div_nonneg (Nat.cast_nonneg _) (by linarith [D_PI_gt_one])
    have hfl0 : 0 ≤ ⌊(s.m_unwrapWidth : ℚ) / D_PI⌋ := Int.floor_nonneg.mpr hq0
    have hhle : s.m_unwrapHeight ≤ s.m_unwrapWidth := by
      have h1 : ((⌊(s.m_unwrapWidth : ℚ) / D_PI⌋ : Int) : ℚ) ≤ (s.m_unwrapWidth : ℚ) :=
        le_trans (Int.floor_le _) (div_le_self (Nat.cast_nonneg _) D_PI_gt_one.le)
      have h2 : ⌊(s.m_unwrapWidth : ℚ) / D_PI⌋ ≤ (s.m_unwrapWidth : Int) := by
        exact_mod_cast h1
      rw [hh]
      omega
    by_cases h0 : s.m_unwrapHeight = 0
    · have hrows : (rowCounters s).length = 4294967295 := by
        unfold rowCounters
        rw [List.length_reverse, List.length_range', h0]
        decide
      rw [hrows, hsz, h0] at hfit
      simp only [Nat.mul_zero, Nat.zero_mul, Nat.zero_mod] at hfit
      omega
    · have hrows := length_rowCounters s (by omega) (by omega)
      rw [hrows, hsz] at hfit
      have hsplit : s.m_unwrapWidth * s.m_unwrapHeight * 3
          = 3 * s.m_unwrapWidth * (s.m_unwrapHeight - 1) + 3 * s.m_unwrapWidth := by
        obtain ⟨n, hn⟩ : ∃ n, s.m_unwrapHeight = n + 1 := ⟨s.m_unwrapHeight - 1, by omega⟩
        rw [hn]
        simp only [Nat.add_sub_cancel]
        ring
      by_cases hbig : s.m_unwrapWidth * s.m_unwrapHeight * 3 < 4294967296
      · rw [hsz, Nat.mod_eq_of_lt hbig]
      · exfalso
        have hw3 : 4294967296 ≤ 3 * s.m_unwrapWidth := by omega
        have hone : s.m_unwrapHeight - 1 = 0 := by
          by_contra hne
          have : 3 * s.m_unwrapWidth ≤ 3 * s.m_unwrapWidth * (s.m_unwrapHeight - 1) :=
            Nat.le_mul_of_pos_right _ (by omega)
          omega
        have htwo : (2 : Int) ≤ ⌊(s.m_unwrapWidth : ℚ) / D_PI⌋ := by
          apply Int.le_floor.mpr
          rw [le_div_iff₀ (by linarith [D_PI_gt_one])]
          have hwq : (7 : ℚ) ≤ (s.m_unwrapWidth : ℚ) := by
            have : 7 ≤ s.m_unwrapWidth := by omega
            exact_mod_cast this
          push_cast
          linarith [D_PI_lt]
        omega

/-- C7, as the code has it: from a state whose width fields are as `unwrapWidth` leaves
them (every state the setters reach from the constructor), when `generateTransformation`
has succeeded and no `unwrapWidth` call follows it (other setter calls may), every later
successful `unwrap` assigns an image of exactly `unwrapWidth * unwrapHeight * 3` bytes for
the width and height in force at generation, and the table has that many entries. -/
theorem unwrap_size_after_generation (m : MathLib) (junk : Nat → Nat)
    (s s1 : BubbleScopeUnwrapper) (calls : List SetterCall) (imageIn r out : List Nat)
    (hD : WidthDerived s)
    (hgen : s.generateTransformation m junk = some (true, s1))
    (hcalls : ∀ c ∈ calls, ∀ w, c ≠ SetterCall.unwrapWidth w)
    (hun : (runSetters s1 calls).unwrap imageIn = some (true, r, some out)) :
    out.length = s.m_unwrapWidth * s.m_unwrapHeight * 3 ∧
    ∃ t, (runSetters s1 calls).m_transformation = some t ∧ t.length = out.length := by
  obtain ⟨t, hs1, hlen⟩ := generateTransformation_true_state m junk s s1 hgen
  obtain ⟨hw, hh, -⟩ := runSetters_derived calls s1 hcalls
  have hout := (unwrap_true_length _ imageIn r out hun).1
  have hw1 : s1.m_unwrapWidth = s.m_unwrapWidth := by rw [hs1]
  have hh1 : s1.m_unwrapHeight = s.m_unwrapHeight := by rw [hs1]
  have hsize : out.length = s.m_unwrapWidth * s.m_unwrapHeight * 3 := by
    rw [hout, hw, hh, hw1, hh1]
  refine ⟨hsize, t, ?_, ?_⟩
  · rw [runSetters_table, hs1]
  · rw [hlen, hsize, widthDerived_no_wrap m junk s s1 hD hgen]

/-- C7 as the code has it, in the scenario of the spec with outer radius 0.3 on memory that
was zero before the allocation, with a call of `offsetAngle` between generation and
`unwrap`. -/
theorem unwrap_size_after_generation_witness :
    WidthDerived (configure 900 640 480 (1 / 2) (1 / 2) (1 / 10) (3 / 10) 0) ∧
    ∃ s1 out,
      (configure 900 640 480 (1 / 2) (1 / 2) (1 / 10) (3 / 10) 0).generateTransformation
          circleLib (fun _ => 0) = some (true, s1) ∧
      (runSetters s1 [SetterCall.offsetAngle 90]).unwrap (frame640x480 0)
        = some (true, frame640x480 0, some out) ∧
      out.length = (configure 900 640 480 (1 / 2) (1 / 2) (1 / 10) (3 / 10) 0).m_unwrapWidth
        * (configure 900 640 480 (1 / 2) (1 / 2) (1 / 10) (3 / 10) 0).m_unwrapHeight * 3 ∧
      ∃ t, (runSetters s1 [SetterCall.offsetAngle 90]).m_transformation = some t ∧
        t.length = out.length := by
  have hD : WidthDerived (configure 900 640 480 (1 / 2) (1 / 2) (1 / 10) (3 / 10) 0) := by
    unfold configure
    refine runSetters_widthDerived _ _ ctor_widthDerived ?_
    intro c hc w hw
    rw [hw] at hc
    simp only [List.mem_cons, SetterCall.unwrapWidth.injEq, List.mem_singleton, reduceCtorEq,
      or_false, List.not_mem_nil] at hc
    rw [hc]
    norm_num
  obtain ⟨t, hgen, hlen, hwritten, hrest⟩ := centred_table circleLib (fun _ => 0)
  have hnot : ∀ c ∈ [SetterCall.offsetAngle 90], ∀ w, c ≠ SetterCall.unwrapWidth w := by
    intro c hc w
    rw [List.mem_singleton] at hc
    rw [hc]
    exact fun h => SetterCall.noConfusion h
  have hd := runSetters_derived [SetterCall.offsetAngle 90]
    { configure 900 640 480 (1 / 2) (1 / 2) (1 / 10) (3 / 10) 0 with
      m_transformation := some t } hnot
  have htab := runSetters_table [SetterCall.offsetAngle 90]
    { configure 900 640 480 (1 / 2) (1 / 2) (1 / 10) (3 / 10) 0 with
      m_transformation := some t }
  have hU : (runSetters { configure 900 640 480 (1 / 2) (1 / 2) (1 / 10) (3 / 10) 0 with
      m_transformation := some t } [SetterCall.offsetAngle 90]).m_unwrapWidth = 900 :=
    hd.1.trans centred_fields.2.2.1
  have hH : (runSetters { configure 900 640 480 (1 / 2) (1 / 2) (1 / 10) (3 / 10) 0 with
      m_transformation := some t } [SetterCall.offsetAngle 90]).m_unwrapHeight = 286 :=
    hd.2.1.trans centred_fields.2.2.2.1
  have hN : (runSetters { configure 900 640 480 (1 / 2) (1 / 2) (1 / 10) (3 / 10) 0 with
      m_transformation := some t } [SetterCall.offsetAngle 90]).m_outMatSize = 772200 :=
    hd.2.2.trans centred_fields.2.2.2.2
  obtain ⟨out, hun, -, -, -⟩ := unwrap_eq _ t (frame640x480 0) htab
    (by rw [hN, hH, hU])
    (by
      intro k hk
      rw [hN] at hk
      rw [length_frame640x480]
      by_cases hk1 : k < 769500
      · exact hwritten k hk1
      · exact ⟨0, hrest k (by omega) hk, by norm_num⟩)
  exact ⟨hD, _, out, hgen, hun,
    unwrap_size_after_generation circleLib (fun _ => 0) _ _ _ (frame640x480 0) _ out
      hD hgen hnot hun⟩

/-! Pixel coordinates of a sample -/

theorem oldPixelIndex_eq (m : MathLib) (s : BubbleScopeUnwrapper) (i j : Nat) :
    oldPixelIndex m s i j
      = toUInt32 (((yPixel m s i j * (s.m_originalWidth : Int)) + xPixel m s i j) * 3) :=
  rfl

theorem clampedU_le_one (m : MathLib) (s : BubbleScopeUnwrapper) (i j : Nat) :
    clampedU m s i j ≤ 1 := by
  unfold clampedU
  simp only
  split_ifs with h
  · exact le_refl _
  · exact not_lt.mp h

theorem clampedV_le_one (m : MathLib) (s : BubbleScopeUnwrapper) (i j : Nat) :
    clampedV m s i j ≤ 1 := by
  unfold clampedV
  simp only
  split_ifs with h
  · exact le_refl _
  · exact not_lt.mp h

theorem truncToInt_nonneg {x : ℚ} (h : 0 ≤ x) : 0 ≤ truncToInt x := by
  rw [truncToInt_of_nonneg h]
  exact Int.floor_nonneg.mpr h

/-- C20: with `originalWidth > 0` and `originalHeight > 0`, in exact arithmetic, the
computed `xPixel` and `yPixel` of every sample are not negative, the clamped `u` and `v`
being at most 1; for a sample whose clamped `u` and `v` are both positive, `xPixel` is in
`[0, originalWidth - 1]`, `yPixel` is in `[0, originalHeight - 1]` and the stored offsets
`base`, `base + 1`, `base + 2` are below `originalWidth * originalHeight * 3`; and a
sample with `u ≤ 0` has `yPixel ≥ originalHeight`. -/
theorem pixel_coordinates (m : MathLib) (s : BubbleScopeUnwrapper) (i j : Nat)
    (hW : 0 < s.m_originalWidth) (hH : 0 < s.m_originalHeight) :
    (clampedU m s i j ≤ 1 ∧ clampedV m s i j ≤ 1) ∧
    (0 ≤ xPixel m s i j ∧ 0 ≤ yPixel m s i j) ∧
    (0 < clampedU m s i j → 0 < clampedV m s i j →
      xPixel m s i j ≤ (s.m_originalWidth : Int) - 1 ∧
      yPixel m s i j ≤ (s.m_originalHeight : Int) - 1 ∧
      oldPixelIndex m s i j + 2 < s.m_originalWidth * s.m_originalHeight * 3) ∧
    (clampedU m s i j ≤ 0 → (s.m_originalHeight : Int) ≤ yPixel m s i j) := by
  have hu1 := clampedU_le_one m s i j
  have hv1 := clampedV_le_one m s i j
  have hWq : (0 : ℚ) < (s.m_originalWidth : ℚ) := by exact_mod_cast hW
  have hHq : (0 : ℚ) < (s.m_originalHeight : ℚ) := by exact_mod_cast hH
  refine ⟨⟨hu1, hv1⟩, ⟨?_, ?_⟩, ?_, ?_⟩
  · exact truncToInt_nonneg (mul_nonneg (by linarith) hWq.le)
  · exact truncToInt_nonneg (mul_nonneg (by linarith) hHq.le)
  · intro hu0 hv0
    have hx := truncToInt_bound s.m_originalWidth hW _ hv0 hv1
    have hy := truncToInt_bound s.m_originalHeight hH _ hu0 hu1
    refine ⟨hx.2, hy.2, ?_⟩
    rw [oldPixelIndex_eq]
    exact offset_lt s.m_originalWidth s.m_originalHeight _ _ hx.1 hx.2 hy.1 hy.2
  · intro hu0
    have hq : ((s.m_originalHeight : Int) : ℚ)
        ≤ (1 - clampedU m s i j) * (s.m_originalHeight : ℚ) := by
      push_cast
      nlinarith
    unfold yPixel
    rw [truncToInt_of_nonneg (mul_nonneg (by linarith) hHq.le)]
    exact Int.le_floor.mpr hq

/-- C20 at the sample of row counter 285 and column counter 0 in the scenario of the spec
with outer radius 0.3. -/
theorem pixel_coordinates_witness :
    (0 < (configure 900 640 480 (1 / 2) (1 / 2) (1 / 10) (3 / 10) 0).m_originalWidth ∧
      0 < (configure 900 640 480 (1 / 2) (1 / 2) (1 / 10) (3 / 10) 0).m_originalHeight) ∧
    ((clampedU circleLib (configure 900 640 480 (1 / 2) (1 / 2) (1 / 10) (3 / 10) 0) 285 0 ≤ 1 ∧
        clampedV circleLib (configure 900 640 480 (1 / 2) (1 / 2) (1 / 10) (3 / 10) 0) 285 0 ≤ 1) ∧
      (0 ≤ xPixel circleLib (configure 900 640 480 (1 / 2) (1 / 2) (1 / 10) (3 / 10) 0) 285 0 ∧
        0 ≤ yPixel circleLib (configure 900 640 480 (1 / 2) (1 / 2) (1 / 10) (3 / 10) 0) 285 0) ∧
      (0 < clampedU circleLib (configure 900 640 480 (1 / 2) (1 / 2) (1 / 10) (3 / 10) 0) 285 0 →
        0 < clampedV circleLib (configure 900 640 480 (1 / 2) (1 / 2) (1 / 10) (3 / 10) 0) 285 0 →
        xPixel circleLib (configure 900 640 480 (1 / 2) (1 / 2) (1 / 10) (3 / 10) 0) 285 0
          ≤ ((configure 900 640 480 (1 / 2) (1 / 2) (1 / 10) (3 / 10) 0).m_originalWidth : Int) - 1 ∧
        yPixel circleLib (configure 900 640 480 (1 / 2) (1 / 2) (1 / 10) (3 / 10) 0) 285 0
          ≤ ((configure 900 640 480 (1 / 2) (1 / 2) (1 / 10) (3 / 10) 0).m_originalHeight : Int) - 1 ∧
        oldPixelIndex circleLib (configure 900 640 480 (1 / 2) (1 / 2) (1 / 10) (3 / 10) 0) 285 0 + 2
          < (configure 900 640 480 (1 / 2) (1 / 2) (1 / 10) (3 / 10) 0).m_originalWidth
            * (configure 900 640 480 (1 / 2) (1 / 2) (1 / 10) (3 / 10) 0).m_originalHeight * 3) ∧
      (clampedU circleLib (configure 900 640 480 (1 / 2) (1 / 2) (1 / 10) (3 / 10) 0) 285 0 ≤ 0 →
        ((configure 900 640 480 (1 / 2) (1 / 2) (1 / 10) (3 / 10) 0).m_originalHeight : Int)
          ≤ yPixel circleLib (configure 900 640 480 (1 / 2) (1 / 2) (1 / 10) (3 / 10) 0) 285 0)) :=
  ⟨⟨by rw [centred_fields.1]; norm_num, by rw [centred_fields.2.1]; norm_num⟩,
    pixel_coordinates circleLib _ 285 0 (by rw [centred_fields.1]; norm_num)
      (by rw [centred_fields.2.1]; norm_num)⟩

/-! The offset angle and the unwrap height -/

theorem D_PI_pos : (0 : ℚ) < D_PI := by
  linarith [D_PI_gt_one]

theorem D_PI_gt_three : (3 : ℚ) < D_PI := by
  unfold D_PI
  norm_num

theorem floor_div_D_PI_le (w : Nat) : 3 * ⌊(w : ℚ) / D_PI⌋.toNat ≤ w := by
  have hq0 : (0 : ℚ) ≤ (w : ℚ) / D_PI := div_nonneg (Nat.cast_nonneg _) D_PI_pos.le
  have hfl0 : 0 ≤ ⌊(w : ℚ) / D_PI⌋ := Int.floor_nonneg.mpr hq0
  have h1 : ((⌊(w : ℚ) / D_PI⌋ : Int) : ℚ) * D_PI ≤ (w : ℚ) := by
    have := Int.floor_le ((w : ℚ) / D_PI)
    rwa [le_div_iff₀ D_PI_pos] at this
  have h0q : (0 : ℚ) ≤ ((⌊(w : ℚ) / D_PI⌋ : Int) : ℚ) := by exact_mod_cast hfl0
  have h2 : ((⌊(w : ℚ) / D_PI⌋ : Int) : ℚ) * 3 ≤ (w : ℚ) := by
    nlinarith [D_PI_gt_three]
  have h3 : ⌊(w : ℚ) / D_PI⌋ * 3 ≤ (w : Int) := by exact_mod_cast h2
  omega

theorem product_lt_of_le_65536 (a b : Nat) (ha : a ≤ 65536) (hb : 3 * b ≤ a) :
    a * b * 3 < 4294967296 := by
  have hb3 : 3 * b ≤ 65535 := by omega
  have hmul : a * (3 * b) ≤ 65536 * 65535 := Nat.mul_le_mul ha hb3
  have hre : a * b * 3 = a * (3 * b) := by ring
  rw [hre]
  omega

theorem generateTransformation_table_length (m : MathLib) (junk : Nat → Nat)
    (s s1 : BubbleScopeUnwrapper) (r : Bool)
    (h : s.generateTransformation m junk = some (r, s1)) :
    ∃ t, s1.m_transformation = some t ∧ t.length = s.m_outMatSize := by
  cases r with
  | true =>
    obtain ⟨t, hs1, hlen⟩ := generateTransformation_true_state m junk s s1 h
    exact ⟨t, by rw [hs1], hlen⟩
  | false =>
    have hs1 := generateTransformation_false_state m junk s s1 h
    exact ⟨_, by rw [hs1], by simp⟩

/-- C12, as the code has it: for a positive `int` width the stored pixel count is the
product `unwrapWidth * unwrapHeight * 3` reduced modulo `2^32`; it is the product itself
whenever the product is below `2^32`, which is so for every width up to 65536; and the
table a returning `generateTransformation` leaves has exactly the stored number of
entries. -/
theorem unwrapWidth_pixel_count (s : BubbleScopeUnwrapper) (w : Int) (hpos : 0 < w)
    (hint : w < 2147483648) :
    (s.unwrapWidth w).2.m_outMatSize
      = ((s.unwrapWidth w).2.m_unwrapWidth * (s.unwrapWidth w).2.m_unwrapHeight * 3)
          % 4294967296 ∧
    ((s.unwrapWidth w).2.m_unwrapWidth * (s.unwrapWidth w).2.m_unwrapHeight * 3 < 4294967296 →
      (s.unwrapWidth w).2.m_outMatSize
        = (s.unwrapWidth w).2.m_unwrapWidth * (s.unwrapWidth w).2.m_unwrapHeight * 3) ∧
    (w ≤ 65536 →
      (s.unwrapWidth w).2.m_outMatSize
        = (s.unwrapWidth w).2.m_unwrapWidth * (s.unwrapWidth w).2.m_unwrapHeight * 3) ∧
    (∀ (m : MathLib) (junk : Nat → Nat) (r : Bool) (s1 : BubbleScopeUnwrapper),
      (s.unwrapWidth w).2.generateTransformation m junk = some (r, s1) →
      ∃ t, s1.m_transformation = some t ∧ t.length = (s.unwrapWidth w).2.m_outMatSize) := by
  obtain ⟨-, h1, h2, h3⟩ := unwrapWidth_of_pos s w hpos hint
  have hmod : (s.unwrapWidth w).2.m_outMatSize
      = ((s.unwrapWidth w).2.m_unwrapWidth * (s.unwrapWidth w).2.m_unwrapHeight * 3)
          % 4294967296 := by
    rw [h3, h1, h2]
  refine ⟨hmod, ?_, ?_, ?_⟩
  · intro hlt
    rw [hmod, Nat.mod_eq_of_lt hlt]
  · intro hle
    rw [hmod]
    apply Nat.mod_eq_of_lt
    rw [h1, h2]
    have hcast : ((w.toNat : Nat) : ℚ) = (w : ℚ) := by
      have : ((w.toNat : Nat) : Int) = w := Int.toNat_of_nonneg hpos.le
      exact_mod_cast this
    have hfl := floor_div_D_PI_le w.toNat
    rw [hcast] at hfl
    have hw : w.toNat ≤ 65536 := by omega
    exact product_lt_of_le_65536 _ _ hw hfl
  · intro m junk r s1 hg
    exact generateTransformation_table_length m junk (s.unwrapWidth w).2 s1 r hg

/-- C12 fails as stated: `unwrapWidth(100000)` succeeds and stores the height 31830, but the
pixel count it stores is 959065408, the 32-bit remainder of the product
`100000 * 31830 * 3 = 9549000000`. -/
theorem pixel_count_wraps :
    (BubbleScopeUnwrapper.ctor.unwrapWidth 100000).1 = true ∧
    (BubbleScopeUnwrapper.ctor.unwrapWidth 100000).2.m_unwrapWidth = 100000 ∧
    (BubbleScopeUnwrapper.ctor.unwrapWidth 100000).2.m_unwrapHeight = 31830 ∧
    (BubbleScopeUnwrapper.ctor.unwrapWidth 100000).2.m_outMatSize = 959065408 ∧
    (BubbleScopeUnwrapper.ctor.unwrapWidth 100000).2.m_outMatSize
      ≠ (BubbleScopeUnwrapper.ctor.unwrapWidth 100000).2.m_unwrapWidth
        * (BubbleScopeUnwrapper.ctor.unwrapWidth 100000).2.m_unwrapHeight * 3 := by
  obtain ⟨h0, h1, h2, h3⟩ :=
    unwrapWidth_of_pos BubbleScopeUnwrapper.ctor 100000 (by norm_num) (by norm_num)
  have hf : ⌊((100000 : Int) : ℚ) / D_PI⌋ = 31830 := by
    unfold D_PI
    norm_num
  rw [hf] at h2 h3
  have e1 : (100000 : Int).toNat = 100000 := rfl
  have e2 : (31830 : Int).toNat = 31830 := rfl
  rw [e1] at h1 h3
  rw [e2] at h2 h3
  refine ⟨h0, h1, h2, ?_, ?_⟩
  · rw [h3]
  · rw [h3, h1, h2]
    norm_num

/-- C12 as the code has it, at `unwrapWidth(900)` on a fresh object. -/
theorem unwrapWidth_pixel_count_witness :
    ((0 : Int) < 900 ∧ (900 : Int) < 2147483648) ∧
    ((BubbleScopeUnwrapper.ctor.unwrapWidth 900).2.m_outMatSize
      = ((BubbleScopeUnwrapper.ctor.unwrapWidth 900).2.m_unwrapWidth
          * (BubbleScopeUnwrapper.ctor.unwrapWidth 900).2.m_unwrapHeight * 3) % 4294967296 ∧
    ((BubbleScopeUnwrapper.ctor.unwrapWidth 900).2.m_unwrapWidth
        * (BubbleScopeUnwrapper.ctor.unwrapWidth 900).2.m_unwrapHeight * 3 < 4294967296 →
      (BubbleScopeUnwrapper.ctor.unwrapWidth 900).2.m_outMatSize
        = (BubbleScopeUnwrapper.ctor.unwrapWidth 900).2.m_unwrapWidth
          * (BubbleScopeUnwrapper.ctor.unwrapWidth 900).2.m_unwrapHeight * 3) ∧
    ((900 : Int) ≤ 65536 →
      (BubbleScopeUnwrapper.ctor.unwrapWidth 900).2.m_outMatSize
        = (BubbleScopeUnwrapper.ctor.unwrapWidth 900).2.m_unwrapWidth
          * (BubbleScopeUnwrapper.ctor.unwrapWidth 900).2.m_unwrapHeight * 3) ∧
    (∀ (m : MathLib) (junk : Nat → Nat) (r : Bool) (s1 : BubbleScopeUnwrapper),
      (BubbleScopeUnwrapper.ctor.unwrapWidth 900).2.generateTransformation m junk
        = some (r, s1) →
      ∃ t, s1.m_transformation = some t
        ∧ t.length = (BubbleScopeUnwrapper.ctor.unwrapWidth 900).2.m_outMatSize)) :=
  ⟨⟨by norm_num, by norm_num⟩,
    unwrapWidth_pixel_count BubbleScopeUnwrapper.ctor 900 (by norm_num) (by norm_num)⟩

/-! Where each written entry lies -/

theorem room_of_product (s : BubbleScopeUnwrapper) (h1 : 1 ≤ s.m_unwrapHeight)
    (hsz : s.m_outMatSize = s.m_unwrapWidth * s.m_unwrapHeight * 3) :
    (s.m_unwrapHeight - 1) * s.m_unwrapWidth * 3 ≤ s.m_outMatSize := by
  obtain ⟨n, hn⟩ : ∃ n, s.m_unwrapHeight = n + 1 := ⟨s.m_unwrapHeight - 1, by omega⟩
  rw [hsz, hn]
  simp only [Nat.add_sub_cancel]
  have : s.m_unwrapWidth * (n + 1) * 3 = n * s.m_unwrapWidth * 3 + 3 * s.m_unwrapWidth := by
    ring
  omega

theorem getElem?_pixelEntries (p c : Nat) (hc : c < 3) :
    (pixelEntries p)[c]? = some (p + c) := by
  unfold pixelEntries
  interval_cases c <;> rfl

theorem getElem?_columnEntries (m : MathLib) (s : BubbleScopeUnwrapper) (i : Nat) :
    ∀ (js : List Nat) (q c : Nat), q < js.length → c < 3 →
      ∃ j, js[q]? = some j ∧
        (columnEntries m s i js)[3 * q + c]? = some (oldPixelIndex m s i j + c)
  | [], q, c, hq, _ => by simp at hq
  | j :: js, 0, c, _, hc => by
    refine ⟨j, by simp, ?_⟩
    simp only [columnEntries, Nat.mul_zero, Nat.zero_add]
    rw [List.getElem?_append_left (by rw [length_pixelEntries]; exact hc)]
    exact getElem?_pixelEntries _ c hc
  | j :: js, q + 1, c, hq, hc => by
    have hq1 : q < js.length := by simpa using hq
    obtain ⟨j1, h1, h2⟩ := getElem?_columnEntries m s i js q c hq1 hc
    refine ⟨j1, by simpa using h1, ?_⟩
    simp only [columnEntries]
    rw [List.getElem?_append_right (by rw [length_pixelEntries]; omega), length_pixelEntries]
    have e : 3 * (q + 1) + c - 3 = 3 * q + c := by omega
    rw [e]
    exact h2

theorem getElem?_rowEntries (m : MathLib) (s : BubbleScopeUnwrapper) :
    ∀ (is : List Nat) (r k : Nat), r < is.length → k < 3 * s.m_unwrapWidth →
      ∃ i, is[r]? = some i ∧
        (rowEntries m s is)[3 * s.m_unwrapWidth * r + k]?
          = (columnEntries m s i (List.range s.m_unwrapWidth))[k]?
  | [], r, k, hr, _ => by simp at hr
  | i :: is, 0, k, _, hk => by
    refine ⟨i, by simp, ?_⟩
    simp only [rowEntries, Nat.mul_zero, Nat.zero_add]
    rw [List.getElem?_append_left (by rw [length_columnEntries, List.length_range]; exact hk)]
  | i :: is, r + 1, k, hr, hk => by
    have hr1 : r < is.length := by simpa using hr
    obtain ⟨i1, h1, h2⟩ := getElem?_rowEntries m s is r k hr1 hk
    refine ⟨i1, by simpa using h1, ?_⟩
    simp only [rowEntries]
    rw [List.getElem?_append_right (by
      rw [length_columnEntries, List.length_range, Nat.mul_succ]; omega),
      length_columnEntries, List.length_range]
    have e : 3 * s.m_unwrapWidth * (r + 1) + k - 3 * s.m_unwrapWidth
        = 3 * s.m_unwrapWidth * r + k := by
      rw [Nat.mul_succ]; omega
    rw [e]
    exact h2

theorem getElem?_reverse_range' (n r : Nat) (h : r < n) :
    (List.range' 1 n).reverse[r]? = some (n - r) := by
  rw [List.getElem?_reverse (by rw [List.length_range']; exact h), List.length_range',
    List.getElem?_range' 1 1 (by omega : n - 1 - r < n)]
  congr 1
  omega

/-- The entry the generator writes for row counter `i`, column counter `j` and channel
`c`, read in the list of written entries. -/
theorem getElem?_written (m : MathLib) (s : BubbleScopeUnwrapper) (n i j c : Nat)
    (hi1 : 1 ≤ i) (hin : i ≤ n) (hj : j < s.m_unwrapWidth) (hc : c < 3) :
    (rowEntries m s (List.range' 1 n).reverse)[((n - i) * s.m_unwrapWidth + j) * 3 + c]?
      = some (oldPixelIndex m s i j + c) := by
  have hr : n - i < (List.range' 1 n).reverse.length := by
    rw [List.length_reverse, List.length_range']; omega
  obtain ⟨i1, h1, h2⟩ := getElem?_rowEntries m s _ (n - i) (3 * j + c) hr (by omega)
  rw [getElem?_reverse_range' n (n - i) (by omega)] at h1
  have hi : i1 = i := by
    have := Option.some.inj h1
    omega
  subst hi
  obtain ⟨j1, h3, h4⟩ := getElem?_columnEntries m s i1 (List.range s.m_unwrapWidth) j c
    (by rw [List.length_range]; exact hj) hc
  rw [List.getElem?_range hj] at h3
  have hj1 : j1 = j := (Option.some.inj h3).symm
  subst hj1
  have e : ((n - i1) * s.m_unwrapWidth + j1) * 3 + c
      = 3 * s.m_unwrapWidth * (n - i1) + (3 * j1 + c) := by ring
  rw [e, h2, h4]

/-- The table a generation leaves when the check passes, the height is at least 1 and the
table has room for all rows but one: which entry holds which offset, and which entries
keep what the memory held. -/
theorem generated_entries (m : MathLib) (junk : Nat → Nat) (s : BubbleScopeUnwrapper)
    (h1 : 1 ≤ s.m_unwrapHeight) (h2 : s.m_unwrapHeight < 4294967296)
    (hfeas : pixelSpan s ≤ s.m_originalHeight)
    (hroom : (s.m_unwrapHeight - 1) * s.m_unwrapWidth * 3 ≤ s.m_outMatSize) :
    ∃ t, s.generateTransformation m junk
          = some (true, { s with m_transformation := some t }) ∧
      t.length = s.m_outMatSize ∧
      (∀ i j c, 1 ≤ i → i ≤ s.m_unwrapHeight - 1 → j < s.m_unwrapWidth → c < 3 →
        t[((s.m_unwrapHeight - 1 - i) * s.m_unwrapWidth + j) * 3 + c]?
          = some (oldPixelIndex m s i j + c)) ∧
      (∀ k, (s.m_unwrapHeight - 1) * s.m_unwrapWidth * 3 ≤ k → k < s.m_outMatSize →
        t[k]? = some (junk k)) := by
  have hrows := rowCounters_eq s h1 (by omega)
  have hlen := length_rowCounters s h1 (by omega)
  have hcount : 3 * s.m_unwrapWidth * (rowCounters s).length
      = (s.m_unwrapHeight - 1) * s.m_unwrapWidth * 3 := by
    rw [hlen]; ring
  have hfit : 3 * s.m_unwrapWidth * (rowCounters s).length ≤ s.m_outMatSize := by
    rw [hcount]; exact hroom
  have hR : (rowEntries m s (rowCounters s)).length
      = (s.m_unwrapHeight - 1) * s.m_unwrapWidth * 3 := by
    rw [length_rowEntries, hcount]
  refine ⟨_, generateTransformation_of_le m junk s hfeas hfit, ?_, ?_, ?_⟩
  · rw [List.length_append, hR, List.length_drop, List.length_map, List.length_range, hcount]
    omega
  · intro i j c hi1 hi2 hj hc
    have hidx : ((s.m_unwrapHeight - 1 - i) * s.m_unwrapWidth + j) * 3 + c
        < (rowEntries m s (rowCounters s)).length := by
      rw [hR]
      have hrow : (s.m_unwrapHeight - 1 - i) + 1 ≤ s.m_unwrapHeight - 1 := by omega
      have := Nat.mul_le_mul_right s.m_unwrapWidth hrow
      rw [Nat.add_mul, Nat.one_mul] at this
      omega
    rw [List.getElem?_append_left hidx, hrows]
    exact getElem?_written m s (s.m_unwrapHeight - 1) i j c hi1 hi2 hj hc
  · intro k hk1 hk2
    rw [hcount]
    have e : (s.m_unwrapHeight - 1) * s.m_unwrapWidth * 3
        + (k - (s.m_unwrapHeight - 1) * s.m_unwrapWidth * 3) = k := by omega
    rw [List.getElem?_append_right (by rw [hR]; exact hk1), hR, List.getElem?_drop, e,
      List.getElem?_map, List.getElem?_range hk2]
    rfl

/-- C18: for `unwrapHeight ≥ 1`, a geometry that passes the feasibility check and a stored
pixel count equal to `unwrapWidth * unwrapHeight * 3`, `generateTransformation` returns
true and writes exactly the table indices below `(unwrapHeight - 1) * unwrapWidth * 3`:
for row counter `i` in `[1, unwrapHeight - 1]`, column `j` and channel `c` the entry at
`((unwrapHeight - 1 - i) * unwrapWidth + j) * 3 + c` is `base + c` with
`base = ((yPixel * originalWidth) + xPixel) * 3` in 32 bits, and every entry from
`(unwrapHeight - 1) * unwrapWidth * 3` on keeps what the memory held. -/
theorem written_indices (m : MathLib) (junk : Nat → Nat) (s : BubbleScopeUnwrapper)
    (h1 : 1 ≤ s.m_unwrapHeight) (h2 : s.m_unwrapHeight < 4294967296)
    (hfeas : pixelSpan s ≤ s.m_originalHeight)
    (hsz : s.m_outMatSize = s.m_unwrapWidth * s.m_unwrapHeight * 3) :
    ∃ t, s.generateTransformation m junk
          = some (true, { s with m_transformation := some t }) ∧
      t.length = s.m_outMatSize ∧
      (∀ i j c, 1 ≤ i → i ≤ s.m_unwrapHeight - 1 → j < s.m_unwrapWidth → c < 3 →
        t[((s.m_unwrapHeight - 1 - i) * s.m_unwrapWidth + j) * 3 + c]?
          = some (toUInt32 (((yPixel m s i j * (s.m_originalWidth : Int)) + xPixel m s i j) * 3)
              + c)) ∧
      (∀ k, (s.m_unwrapHeight - 1) * s.m_unwrapWidth * 3 ≤ k → k < s.m_outMatSize →
        t[k]? = some (junk k)) := by
  obtain ⟨t, hg, hl, hw, hr⟩ :=
    generated_entries m junk s h1 h2 hfeas (room_of_product s h1 hsz)
  refine ⟨t, hg, hl, ?_, hr⟩
  intro i j c hi1 hi2 hj hc
  rw [hw i j c hi1 hi2 hj hc, oldPixelIndex_eq]

theorem centred_check :
    pixelSpan (configure 900 640 480 (1 / 2) (1 / 2) (1 / 10) (3 / 10) 0)
      ≤ (configure 900 640 480 (1 / 2) (1 / 2) (1 / 10) (3 / 10) 0).m_originalHeight := by
  have hs := configure_900 (1 / 2) (1 / 2) (3 / 10) (by norm_num) (by norm_num) (by norm_num)
    640 480 (by norm_num) (by norm_num)
  simp only [Nat.cast_ofNat] at hs
  have hiff := pixelSpan_gt_iff (configure 900 640 480 (1 / 2) (1 / 2) (1 / 10) (3 / 10) 0)
    (by rw [hs]; norm_num) (by rw [hs]; norm_num) (by rw [hs]; norm_num)
  by_contra hc
  have h := hiff.mp (by omega)
  rw [hs] at h
  norm_num at h

theorem centred_hyps :
    (1 ≤ (configure 900 640 480 (1 / 2) (1 / 2) (1 / 10) (3 / 10) 0).m_unwrapHeight ∧
      (configure 900 640 480 (1 / 2) (1 / 2) (1 / 10) (3 / 10) 0).m_unwrapHeight < 4294967296) ∧
    (configure 900 640 480 (1 / 2) (1 / 2) (1 / 10) (3 / 10) 0).m_outMatSize
      = (configure 900 640 480 (1 / 2) (1 / 2) (1 / 10) (3 / 10) 0).m_unwrapWidth
        * (configure 900 640 480 (1 / 2) (1 / 2) (1 / 10) (3 / 10) 0).m_unwrapHeight * 3 := by
  rw [centred_fields.2.2.2.1, centred_fields.2.2.2.2, centred_fields.2.2.1]
  norm_num

/-- C18 in the scenario of the spec with outer radius 0.3. -/
theorem written_indices_witness :
    ((1 ≤ (configure 900 640 480 (1 / 2) (1 / 2) (1 / 10) (3 / 10) 0).m_unwrapHeight ∧
        (configure 900 640 480 (1 / 2) (1 / 2) (1 / 10) (3 / 10) 0).m_unwrapHeight
          < 4294967296) ∧
      pixelSpan (configure 900 640 480 (1 / 2) (1 / 2) (1 / 10) (3 / 10) 0)
        ≤ (configure 900 640 480 (1 / 2) (1 / 2) (1 / 10) (3 / 10) 0).m_originalHeight ∧
      (configure 900 640 480 (1 / 2) (1 / 2) (1 / 10) (3 / 10) 0).m_outMatSize
        = (configure 900 640 480 (1 / 2) (1 / 2) (1 / 10) (3 / 10) 0).m_unwrapWidth
          * (configure 900 640 480 (1 / 2) (1 / 2) (1 / 10) (3 / 10) 0).m_unwrapHeight * 3) ∧
    ∃ t, (configure 900 640 480 (1 / 2) (1 / 2) (1 / 10) (3 / 10) 0).generateTransformation
          circleLib (fun _ => 0)
        = some (true, { configure 900 640 480 (1 / 2) (1 / 2) (1 / 10) (3 / 10) 0 with
            m_transformation := some t }) ∧
      t.length = (configure 900 640 480 (1 / 2) (1 / 2) (1 / 10) (3 / 10) 0).m_outMatSize ∧
      (∀ i j c, 1 ≤ i →
        i ≤ (configure 900 640 480 (1 / 2) (1 / 2) (1 / 10) (3 / 10) 0).m_unwrapHeight - 1 →
        j < (configure 900 640 480 (1 / 2) (1 / 2) (1 / 10) (3 / 10) 0).m_unwrapWidth → c < 3 →
        t[(((configure 900 640 480 (1 / 2) (1 / 2) (1 / 10) (3 / 10) 0).m_unwrapHeight - 1 - i)
              * (configure 900 640 480 (1 / 2) (1 / 2) (1 / 10) (3 / 10) 0).m_unwrapWidth + j) * 3
            + c]?
          = some (toUInt32
              (((yPixel circleLib (configure 900 640 480 (1 / 2) (1 / 2) (1 / 10) (3 / 10) 0) i j
                  * ((configure 900 640 480 (1 / 2) (1 / 2) (1 / 10) (3 / 10) 0).m_originalWidth
                      : Int))
                + xPixel circleLib (configure 900 640 480 (1 / 2) (1 / 2) (1 / 10) (3 / 10) 0) i j)
                * 3) + c)) ∧
      (∀ k, ((configure 900 640 480 (1 / 2) (1 / 2) (1 / 10) (3 / 10) 0).m_unwrapHeight - 1)
            * (configure 900 640 480 (1 / 2) (1 / 2) (1 / 10) (3 / 10) 0).m_unwrapWidth * 3 ≤ k →
        k < (configure 900 640 480 (1 / 2) (1 / 2) (1 / 10) (3 / 10) 0).m_outMatSize →
        t[k]? = some ((fun _ => 0) k)) :=
  ⟨⟨centred_hyps.1, centred_check, centred_hyps.2⟩,
    written_indices circleLib (fun _ => 0) _ centred_hyps.1.1 centred_hyps.1.2 centred_check
      centred_hyps.2⟩

/-- C17 fails as stated: in the scenario of the spec with outer radius 0.3, where the
unwrap height is 286, every entry of destination row 0 (indices below `900 * 3`) is
written by generation, with the offset computed for row counter 285, and the entries
that generation does not write are those of the last row, from index `285 * 900 * 3` on. -/
theorem topmost_row_written :
    (configure 900 640 480 (1 / 2) (1 / 2) (1 / 10) (3 / 10) 0).m_unwrapHeight = 286 ∧
    (configure 900 640 480 (1 / 2) (1 / 2) (1 / 10) (3 / 10) 0).m_unwrapWidth = 900 ∧
    ∀ (m : MathLib) (junk : Nat → Nat),
      ∃ t, (configure 900 640 480 (1 / 2) (1 / 2) (1 / 10) (3 / 10) 0).generateTransformation
            m junk
          = some (true, { configure 900 640 480 (1 / 2) (1 / 2) (1 / 10) (3 / 10) 0 with
              m_transformation := some t }) ∧
        (∀ j c, j < 900 → c < 3 →
          t[j * 3 + c]?
            = some (oldPixelIndex m
                (configure 900 640 480 (1 / 2) (1 / 2) (1 / 10) (3 / 10) 0) 285 j + c)) ∧
        (∀ k, 285 * 900 * 3 ≤ k → k < 286 * 900 * 3 → t[k]? = some (junk k)) := by
  refine ⟨centred_fields.2.2.2.1, centred_fields.2.2.1, ?_⟩
  intro m junk
  obtain ⟨t, hg, -, hw, hr⟩ := generated_entries m junk _ centred_hyps.1.1 centred_hyps.1.2
    centred_check (room_of_product _ centred_hyps.1.1 centred_hyps.2)
  rw [centred_fields.2.2.2.1, centred_fields.2.2.1] at hw
  rw [centred_fields.2.2.2.1, centred_fields.2.2.1, centred_fields.2.2.2.2] at hr
  refine ⟨t, hg, ?_, ?_⟩
  · intro j c hj hc
    have := hw 285 j c (by norm_num) (by norm_num) hj hc
    simpa using this
  · intro k hk1 hk2
    exact hr k (by omega) (by omega)

theorem generateTransformation_true_check (m : MathLib) (junk : Nat → Nat)
    (s s1 : BubbleScopeUnwrapper) (h : s.generateTransformation m junk = some (true, s1)) :
    pixelSpan s ≤ s.m_originalHeight := by
  by_contra hc
  rw [generateTransformation_of_gt m junk s (by omega)] at h
  simp at h

/-- C17, as the code has it: after a successful `generateTransformation` with
`unwrapHeight ≥ 2`, the entries of the topmost destination row (row 0) are written by
generation, and so are those of every destination row `r` up to `unwrapHeight - 2`: the
entry of row `r`, column `j`, channel `c` is the offset computed for row counter
`unwrapHeight - 1 - r` and column `j`, plus `c`. -/
theorem destination_rows_written (m : MathLib) (junk : Nat → Nat)
    (s s1 : BubbleScopeUnwrapper) (h2 : 2 ≤ s.m_unwrapHeight)
    (h32 : s.m_unwrapHeight < 4294967296)
    (hgen : s.generateTransformation m junk = some (true, s1)) :
    ∃ t, s1.m_transformation = some t ∧
      ∀ r j c, r + 2 ≤ s.m_unwrapHeight → j < s.m_unwrapWidth → c < 3 →
        t[(r * s.m_unwrapWidth + j) * 3 + c]?
          = some (oldPixelIndex m s (s.m_unwrapHeight - 1 - r) j + c) := by
  have hfeas := generateTransformation_true_check m junk s s1 hgen
  have hfit := generateTransformation_true_fits m junk s s1 hgen
  rw [length_rowCounters s (by omega) (by omega)] at hfit
  have hroom : (s.m_unwrapHeight - 1) * s.m_unwrapWidth * 3 ≤ s.m_outMatSize := by
    have e : (s.m_unwrapHeight - 1) * s.m_unwrapWidth * 3
        = 3 * s.m_unwrapWidth * (s.m_unwrapHeight - 1) := by ring
    rw [e]; exact hfit
  obtain ⟨t, hg, -, hw, -⟩ := generated_entries m junk s (by omega) h32 hfeas hroom
  rw [hg] at hgen
  have hs1 : s1 = { s with m_transformation := some t } := by
    simp only [Option.some.injEq, Prod.mk.injEq, true_and] at hgen
    exact hgen.symm
  refine ⟨t, by rw [hs1], ?_⟩
  intro r j c hr hj hc
  have := hw (s.m_unwrapHeight - 1 - r) j c (by omega) (by omega) hj hc
  have e : s.m_unwrapHeight - 1 - (s.m_unwrapHeight - 1 - r) = r := by omega
  rw [e] at this
  exact this

/-- C17 as the code has it, in the scenario of the spec with outer radius 0.3. -/
theorem destination_rows_written_witness :
    ∃ s1,
      (2 ≤ (configure 900 640 480 (1 / 2) (1 / 2) (1 / 10) (3 / 10) 0).m_unwrapHeight ∧
        (configure 900 640 480 (1 / 2) (1 / 2) (1 / 10) (3 / 10) 0).m_unwrapHeight
          < 4294967296 ∧
        (configure 900 640 480 (1 / 2) (1 / 2) (1 / 10) (3 / 10) 0).generateTransformation
          circleLib (fun _ => 0) = some (true, s1)) ∧
      ∃ t, s1.m_transformation = some t ∧
        ∀ r j c,
          r + 2 ≤ (configure 900 640 480 (1 / 2) (1 / 2) (1 / 10) (3 / 10) 0).m_unwrapHeight →
          j < (configure 900 640 480 (1 / 2) (1 / 2) (1 / 10) (3 / 10) 0).m_unwrapWidth →
          c < 3 →
          t[(r * (configure 900 640 480 (1 / 2) (1 / 2) (1 / 10) (3 / 10) 0).m_unwrapWidth + j)
              * 3 + c]?
            = some (oldPixelIndex circleLib
                (configure 900 640 480 (1 / 2) (1 / 2) (1 / 10) (3 / 10) 0)
                ((configure 900 640 480 (1 / 2) (1 / 2) (1 / 10) (3 / 10) 0).m_unwrapHeight
                  - 1 - r) j + c) := by
  obtain ⟨t, hgen, -, -, -⟩ := centred_table circleLib (fun _ => 0)
  have h2 : 2 ≤ (configure 900 640 480 (1 / 2) (1 / 2) (1 / 10) (3 / 10) 0).m_unwrapHeight := by
    rw [centred_fields.2.2.2.1]; norm_num
  exact ⟨_, ⟨h2, centred_hyps.1.2, hgen⟩,
    destination_rows_written circleLib (fun _ => 0) _ _ h2 centred_hyps.1.2 hgen⟩

/-! Entries that generation leaves as it found them -/

theorem gatherLoop_none (t src : List Nat) (bad : Nat)
    (hbad : ∀ e, t[bad]? = some e → src.length ≤ e) :
    ∀ (is : List Nat) (mem : List Nat × List Nat), bad ∈ is → mem.1 = src →
      gatherLoop t is mem = none
  | [], _, h, _ => by simp at h
  | i :: is, mem, h, hsrc => by
    unfold gatherLoop
    cases hs : gatherStep t mem i with
    | none => rfl
    | some mem1 =>
      rw [Option.some_bind]
      have hkeep : mem1.1 = mem.1 := by
        unfold gatherStep at hs
        cases hk : t.get? i with
        | none => rw [hk] at hs; simp at hs
        | some k =>
          rw [hk, Option.some_bind] at hs
          cases hb : mem.1.get? k with
          | none => rw [hb] at hs; simp at hs
          | some b =>
            rw [hb, Option.some_bind] at hs
            cases ho : store mem.2 i b with
            | none => rw [ho] at hs; simp at hs
            | some o =>
              rw [ho, Option.some_bind] at hs
              cases hs
              rfl
      rcases List.mem_cons.mp h with h1 | h1
      · exfalso
        subst h1
        unfold gatherStep at hs
        cases hk : t.get? bad with
        | none => rw [hk] at hs; simp at hs
        | some k =>
          rw [hk, Option.some_bind] at hs
          have hle := hbad k (by rw [← List.get?_eq_getElem?]; exact hk)
          have hnone : mem.1.get? k = none := by
            rw [hsrc, List.get?_eq_getElem?, List.getElem?_eq_none_iff]
            exact hle
          rw [hnone] at hs
          simp at hs
      · exact gatherLoop_none t src bad hbad is mem1 h1 (hkeep.trans hsrc)

/-- C16 fails in the code. In the scenario of the spec with outer radius 0.3, on memory
whose cells held 921600 before the allocation, generation returns true and the entries of
the last row (indices 769500 to 772199), which it never writes, still hold 921600; the
pixel count is 772200, so `unwrap` gathers through them, and on a 640 by 480 frame of
921600 bytes that read is outside the frame. -/
theorem last_row_never_written (m : MathLib) :
    ∃ t, (configure 900 640 480 (1 / 2) (1 / 2) (1 / 10) (3 / 10) 0).generateTransformation
          m (fun _ => 921600)
        = some (true, { configure 900 640 480 (1 / 2) (1 / 2) (1 / 10) (3 / 10) 0 with
            m_transformation := some t }) ∧
      t.length = 772200 ∧
      (∀ k, 769500 ≤ k → k < 772200 → t[k]? = some 921600) ∧
      BubbleScopeUnwrapper.unwrap
          { configure 900 640 480 (1 / 2) (1 / 2) (1 / 10) (3 / 10) 0 with
            m_transformation := some t } (frame640x480 0) = none := by
  obtain ⟨t, hgen, hlen, -, hrest⟩ := centred_table m (fun _ => 921600)
  refine ⟨t, hgen, hlen, hrest, ?_⟩
  have hbad : ∀ e, t[769500]? = some e → (frame640x480 0).length ≤ e := by
    intro e he
    rw [hrest 769500 (by norm_num) (by norm_num)] at he
    rw [length_frame640x480, ← Option.some.inj he]
  have hloop := gatherLoop_none t (frame640x480 0) 769500 hbad (List.range 772200)
    (frame640x480 0, List.replicate (286 * 900 * 3) 0)
    (List.mem_range.mpr (by norm_num)) rfl
  unfold BubbleScopeUnwrapper.unwrap
  simp only
  have e1 : (configure 900 640 480 (1 / 2) (1 / 2) (1 / 10) (3 / 10) 0).m_outMatSize
      = 772200 := centred_fields.2.2.2.2
  have e2 : (configure 900 640 480 (1 / 2) (1 / 2) (1 / 10) (3 / 10) 0).m_unwrapHeight
      = 286 := centred_fields.2.2.2.1
  have e3 : (configure 900 640 480 (1 / 2) (1 / 2) (1 / 10) (3 / 10) 0).m_unwrapWidth
      = 900 := centred_fields.2.2.1
  rw [e1, e2, e3, hloop]
  rfl

/-- C13 fails in the code. In the scenario of the spec with outer radius 0.3, two runs of
`generateTransformation` on the same state, one on memory that held 0 and one on memory
that held 1, both return true and agree at every entry the generator writes, but their
tables differ at each of the 2700 entries of the last row, which keep the memory
contents. -/
theorem tables_differ_on_unwritten_row (m : MathLib) :
    ∃ t0 t1,
      (configure 900 640 480 (1 / 2) (1 / 2) (1 / 10) (3 / 10) 0).generateTransformation
          m (fun _ => 0)
        = some (true, { configure 900 640 480 (1 / 2) (1 / 2) (1 / 10) (3 / 10) 0 with
            m_transformation := some t0 }) ∧
      (configure 900 640 480 (1 / 2) (1 / 2) (1 / 10) (3 / 10) 0).generateTransformation
          m (fun _ => 1)
        = some (true, { configure 900 640 480 (1 / 2) (1 / 2) (1 / 10) (3 / 10) 0 with
            m_transformation := some t1 }) ∧
      (∀ i j c, 1 ≤ i → i ≤ 285 → j < 900 → c < 3 →
        t0[((285 - i) * 900 + j) * 3 + c]? = t1[((285 - i) * 900 + j) * 3 + c]?) ∧
      (∀ k, 769500 ≤ k → k < 772200 → t0[k]? = some 0 ∧ t1[k]? = some 1) ∧
      t0 ≠ t1 := by
  obtain ⟨t0, hg0, -, hw0, hr0⟩ := generated_entries m (fun _ => 0) _ centred_hyps.1.1
    centred_hyps.1.2 centred_check (room_of_product _ centred_hyps.1.1 centred_hyps.2)
  obtain ⟨t1, hg1, -, hw1, hr1⟩ := generated_entries m (fun _ => 1) _ centred_hyps.1.1
    centred_hyps.1.2 centred_check (room_of_product _ centred_hyps.1.1 centred_hyps.2)
  rw [centred_fields.2.2.2.1, centred_fields.2.2.1] at hw0 hw1
  rw [centred_fields.2.2.2.1, centred_fields.2.2.1, centred_fields.2.2.2.2] at hr0 hr1
  have hlast : ∀ k, 769500 ≤ k → k < 772200 → t0[k]? = some 0 ∧ t1[k]? = some 1 :=
    fun k hk1 hk2 => ⟨hr0 k (by omega) hk2, hr1 k (by omega) hk2⟩
  refine ⟨t0, t1, hg0, hg1, ?_, hlast, ?_⟩
  · intro i j c hi1 hi2 hj hc
    have a := hw0 i j c hi1 (by omega) hj hc
    have b := hw1 i j c hi1 (by omega) hj hc
    simp only [Nat.add_one_sub_one, Nat.reduceSub] at a b
    rw [a, b]
  · intro h
    have := hlast 772199 (by norm_num) (by norm_num)
    rw [h, this.2] at this
    simp at this

/-- C14 fails in the code. In the scenario of the spec with outer radius 0.4 the table is
absent before the call, `generateTransformation` returns false, and afterwards
`m_transformation` holds an array of 772200 entries; no setter call removes it. -/
theorem table_created_by_failed_generation (m : MathLib) (junk : Nat → Nat) :
    (configure 900 640 480 (1 / 2) (1 / 2) (1 / 10) (2 / 5) 0).m_transformation = none ∧
    ∃ s1 t,
      (configure 900 640 480 (1 / 2) (1 / 2) (1 / 10) (2 / 5) 0).generateTransformation
          m junk = some (false, s1) ∧
      s1.m_transformation = some t ∧ t.length = 772200 ∧
      ∀ calls : List SetterCall, (runSetters s1 calls).m_transformation = some t := by
  have hs := configure_900 (1 / 2) (1 / 2) (2 / 5) (by norm_num) (by norm_num) (by norm_num)
    640 480 (by norm_num) (by norm_num)
  simp only [Nat.cast_ofNat] at hs
  have hN : (configure 900 640 480 (1 / 2) (1 / 2) (1 / 10) (2 / 5) 0).m_outMatSize = 772200 := by
    rw [hs]
  have hf : pixelSpan (configure 900 640 480 (1 / 2) (1 / 2) (1 / 10) (2 / 5) 0)
      > (configure 900 640 480 (1 / 2) (1 / 2) (1 / 10) (2 / 5) 0).m_originalHeight := by
    rw [pixelSpan_gt_iff _ (by rw [hs]; norm_num) (by rw [hs]; norm_num) (by rw [hs]; norm_num),
      hs]
    norm_num
  refine ⟨by rw [hs], _, _, generateTransformation_of_gt m junk _ hf, rfl, ?_, ?_⟩
  · rw [List.length_map, List.length_range, hN]
  · intro calls
    rw [runSetters_table]

/-! Unwrap widths below 4 -/

theorem configure_3 :
    configure 3 640 480 (1 / 2) (1 / 2) (1 / 10) (3 / 10) 0 =
      { m_transformation := none, m_originalWidth := 640, m_originalHeight := 480,
        m_unwrapWidth := 3, m_uCentre := 1 / 2, m_vCentre := 1 / 2, m_radiusMin := 1 / 10,
        m_radiusMax := 3 / 10, m_offsetAngle := 0, m_unwrapHeight := 0,
        m_outMatSize := 0 } := by
  have h1 : ¬ ((1 : ℚ) / 2 < 0 ∨ (1 : ℚ) / 2 > 1) := by norm_num
  have h3 : ¬ ((3 : ℚ) / 10 < 0 ∨ (3 : ℚ) / 10 > 1 / 2) := by norm_num
  have h3b : ¬ ((1 : ℚ) / 10 < 0 ∨ (1 : ℚ) / 10 > 1 / 2) := by norm_num
  have h4 : ¬ ((1 : ℚ) / 10 ≥ 3 / 10) := by norm_num
  have h5 : ¬ ((640 : Int) < 0 ∨ (480 : Int) < 0) := by omega
  have h6 : ¬ ((3 : Int) ≤ 0) := by omega
  have h7 : ¬ ((0 : ℚ) < 0 ∨ (0 : ℚ) > 360) := by norm_num
  have e1 : toUInt32 3 = 3 := by decide
  have e2 : truncToInt (((3 : Nat) : ℚ) / D_PI) = 0 := by
    unfold truncToInt D_PI
    norm_num
  have e3 : toUInt32 0 = 0 := by decide
  have e4 : toUInt32 (((3 : Nat) : Int) * ((0 : Nat) : Int) * 3) = 0 := by decide
  have e5 : toUInt32 640 = 640 := by decide
  have e6 : toUInt32 480 = 480 := by decide
  simp only [configure, runSetters, List.foldl, SetterCall.run,
    BubbleScopeUnwrapper.unwrapWidth, BubbleScopeUnwrapper.originalSize,
    BubbleScopeUnwrapper.originalCentre, BubbleScopeUnwrapper.imageRadius,
    BubbleScopeUnwrapper.offsetAngle, BubbleScopeUnwrapper.ctor, h1, h3, h3b, h4, h5, h6, h7,
    if_false, e1, e2, e3, e4, e5, e6, zero_mul]

/-- C19 fails in the code. `unwrapWidth(3)` is accepted and stores height 0 and pixel
count 0; with a source of 640 by 480 and outer radius 0.3 the feasibility check passes,
the row counter starts at `0 - 1 = 4294967295` in `unsigned int`, so 4294967295 row
iterations are due instead of at most 0, and the first store, at index 0, is outside the
empty table: the call has no defined result. -/
theorem width_3_overruns_table :
    (BubbleScopeUnwrapper.ctor.unwrapWidth 3).1 = true ∧
    (configure 3 640 480 (1 / 2) (1 / 2) (1 / 10) (3 / 10) 0).m_unwrapHeight = 0 ∧
    (configure 3 640 480 (1 / 2) (1 / 2) (1 / 10) (3 / 10) 0).m_outMatSize = 0 ∧
    pixelSpan (configure 3 640 480 (1 / 2) (1 / 2) (1 / 10) (3 / 10) 0)
      ≤ (configure 3 640 480 (1 / 2) (1 / 2) (1 / 10) (3 / 10) 0).m_originalHeight ∧
    (rowCounters (configure 3 640 480 (1 / 2) (1 / 2) (1 / 10) (3 / 10) 0)).length
      = 4294967295 ∧
    ∀ (m : MathLib) (junk : Nat → Nat),
      writePixel ((List.range
          (configure 3 640 480 (1 / 2) (1 / 2) (1 / 10) (3 / 10) 0).m_outMatSize).map junk) 0
        (oldPixelIndex m (configure 3 640 480 (1 / 2) (1 / 2) (1 / 10) (3 / 10) 0)
          4294967295 0) = none ∧
      (configure 3 640 480 (1 / 2) (1 / 2) (1 / 10) (3 / 10) 0).generateTransformation m junk
        = none := by
  have hs := configure_3
  have hUH : (configure 3 640 480 (1 / 2) (1 / 2) (1 / 10) (3 / 10) 0).m_unwrapHeight = 0 := by
    rw [hs]
  have hUW : (configure 3 640 480 (1 / 2) (1 / 2) (1 / 10) (3 / 10) 0).m_unwrapWidth = 3 := by
    rw [hs]
  have hN : (configure 3 640 480 (1 / 2) (1 / 2) (1 / 10) (3 / 10) 0).m_outMatSize = 0 := by
    rw [hs]
  have hrows : (rowCounters (configure 3 640 480 (1 / 2) (1 / 2) (1 / 10) (3 / 10) 0)).length
      = 4294967295 := by
    unfold rowCounters
    rw [List.length_reverse, List.length_range', hUH]
    decide
  have hchk : pixelSpan (configure 3 640 480 (1 / 2) (1 / 2) (1 / 10) (3 / 10) 0)
      ≤ (configure 3 640 480 (1 / 2) (1 / 2) (1 / 10) (3 / 10) 0).m_originalHeight := by
    have hiff := pixelSpan_gt_iff (configure 3 640 480 (1 / 2) (1 / 2) (1 / 10) (3 / 10) 0)
      (by rw [hs]; norm_num) (by rw [hs]; norm_num) (by rw [hs]; norm_num)
    by_contra hc
    have h := hiff.mp (by omega)
    rw [hs] at h
    norm_num at h
  refine ⟨(unwrapWidth_of_pos _ 3 (by norm_num) (by norm_num)).1, hUH, hN, hchk, hrows, ?_⟩
  intro m junk
  constructor
  · rw [hN]
    rfl
  · cases hg : (configure 3 640 480 (1 / 2) (1 / 2) (1 / 10) (3 / 10) 0).generateTransformation
        m junk with
    | none => rfl
    | some r =>
      exfalso
      obtain ⟨b, s1⟩ := r
      cases b with
      | false =>
        have := (generateTransformation_false_iff m junk _).mp (by rw [hg]; rfl)
        omega
      | true =>
        have hfit := generateTransformation_true_fits m junk _ s1 hg
        rw [hrows, hUW, hN] at hfit
        omega
